import Mathlib

/-!
Verification of the CSI classification/encoding engine and color model of
this terminal-escape-sequence library.

The development shallowly embeds the two source files:

* `termwiz/src/color.rs` — namespace `color`: the bit-packed `RgbColor`
  (8 or 10 bits per channel in one 32-bit word), its constructors and
  conversions, and `from_rgb_str`.
* `src/escape/csi.rs` — namespace `csi`: the `CSI` action type, the SGR and
  cursor codecs, the parsing iterator and the escape encoders.

Machine integers are modelled as `Nat`/`Int` with explicit wrapping
(`% 2^w`, or `Int.emod` for Rust `as` casts) exactly where the Rust types
wrap.  32-bit floating point arithmetic (used by `ten_to_eight`,
`new_f32` and the `hsl:` parser) is modelled exactly over `ℚ`: every
IEEE-754 binary32 operation is the correctly rounded (round to nearest,
ties to even) exact rational result, which the simulator `fl32` computes.
-/

/-! ## Exact simulation of IEEE-754 binary32 arithmetic over ℚ

The library's `Rat` field operations are `@[irreducible]`, which blocks
kernel evaluation by `decide`; the simulator therefore computes with its
own exact rational primitives built on `Rat.divInt`, which does evaluate. -/

/-- Exact product of two rationals (kernel-evaluable). -/
def qmul (x y : ℚ) : ℚ := Rat.divInt (x.num * y.num) ((x.den : ℤ) * (y.den : ℤ))

/-- Exact sum of two rationals (kernel-evaluable). -/
def qadd (x y : ℚ) : ℚ :=
  Rat.divInt (x.num * (y.den : ℤ) + y.num * (x.den : ℤ)) ((x.den : ℤ) * (y.den : ℤ))

/-- Exact difference of two rationals (kernel-evaluable). -/
def qsub (x y : ℚ) : ℚ :=
  Rat.divInt (x.num * (y.den : ℤ) - y.num * (x.den : ℤ)) ((x.den : ℤ) * (y.den : ℤ))

/-- Exact quotient of two rationals (kernel-evaluable; `qdiv x 0 = 0`). -/
def qdiv (x y : ℚ) : ℚ := Rat.divInt (x.num * (y.den : ℤ)) ((x.den : ℤ) * y.num)

/-- Floor of a rational as an integer (the rational is `num/den` with
`den > 0`, so flooring division of `num` by `den` is the floor). -/
def qfloor (q : ℚ) : ℤ := q.num.fdiv (q.den : ℤ)

/-- Round a rational to the nearest integer, ties to even. -/
def roundHalfEven (q : ℚ) : ℤ :=
  let f := qfloor q
  let r := qsub q (f : ℚ)
  if r < mkRat 1 2 then f
  else if mkRat 1 2 < r then f + 1
  else if f % 2 = 0 then f else f + 1

/-- Upward scan for the binary exponent: starting from exponent `e` with
`p = 2 ^ e`, find the largest `e` with `2 ^ e ≤ q` (fuel-bounded). -/
def expScanUp : Nat → ℤ × ℚ → ℚ → ℤ × ℚ
  | 0, ep, _ => ep
  | fuel + 1, (e, p), q =>
    if qmul p 2 ≤ q then expScanUp fuel (e + 1, qmul p 2) q else (e, p)

/-- Downward scan for the binary exponent of a rational below 1. -/
def expScanDown : Nat → ℤ × ℚ → ℚ → ℤ × ℚ
  | 0, ep, _ => ep
  | fuel + 1, (e, p), q =>
    if p ≤ q then (e, p) else expScanDown fuel (e - 1, qmul p (mkRat 1 2)) q

/-- For `q > 0`, the pair `(e, 2 ^ e)` with `2 ^ e ≤ q < 2 ^ (e + 1)`.
The fuel of 400 covers every exponent a finite `f32` can have. -/
def ilog2q (q : ℚ) : ℤ × ℚ :=
  if 1 ≤ q then expScanUp 400 (0, 1) q else expScanDown 400 (0, 1) q

/-- Correct rounding of a positive rational to the binary32 grid
(24-bit significand).  All values arising in this development are normal,
so subnormals and overflow need no special treatment. -/
def fl32Pos (q : ℚ) : ℚ :=
  let (_, p) := ilog2q q
  qdiv (qmul (roundHalfEven (qmul (qdiv q p) 8388608) : ℚ) p) 8388608

/-- Correct rounding of a rational to the binary32 grid (round to nearest,
ties to even). -/
def fl32 (q : ℚ) : ℚ :=
  if q = 0 then 0 else if 0 < q then fl32Pos q else -fl32Pos (-q)

/-- `f32` addition: correctly rounded exact sum. -/
def flAdd (x y : ℚ) : ℚ := fl32 (qadd x y)

/-- `f32` subtraction: correctly rounded exact difference. -/
def flSub (x y : ℚ) : ℚ := fl32 (qsub x y)

/-- `f32` multiplication: correctly rounded exact product. -/
def flMul (x y : ℚ) : ℚ := fl32 (qmul x y)

/-- `f32` division: correctly rounded exact quotient. -/
def flDiv (x y : ℚ) : ℚ := fl32 (qdiv x y)

/-- Rust `f32::rem` (the `%` operator): remainder toward zero; it is always
exactly representable, so no rounding step is applied. -/
def flRem (x y : ℚ) : ℚ :=
  let q := qdiv x y
  let t : ℤ := if 0 ≤ q then qfloor q else -qfloor (-q)
  qsub x (qmul y (t : ℚ))

/-- Rust `as u8` on an `f32`: truncate toward zero, saturating to 0..=255. -/
def flToU8 (q : ℚ) : Nat := min ((qfloor q).toNat) 255

/-- Rust `as u16` on an `f32`: truncate toward zero, saturating to 0..=65535. -/
def flToU16 (q : ℚ) : Nat := min ((qfloor q).toNat) 65535

namespace color

/-! ## termwiz/src/color.rs -/

/-- The classic ANSI color indices (`enum AnsiColor`). -/
inductive AnsiColor where
  | Black | Maroon | Green | Olive | Navy | Purple | Teal | Silver
  | Grey | Red | Lime | Yellow | Blue | Fuchsia | Aqua | White
deriving DecidableEq, Repr

/-- The discriminant of an `AnsiColor` (`col as u8`). -/
def AnsiColor.toU8 : AnsiColor → Nat
  | .Black => 0 | .Maroon => 1 | .Green => 2 | .Olive => 3
  | .Navy => 4 | .Purple => 5 | .Teal => 6 | .Silver => 7
  | .Grey => 8 | .Red => 9 | .Lime => 10 | .Yellow => 11
  | .Blue => 12 | .Fuchsia => 13 | .Aqua => 14 | .White => 15

/-- Derived `FromPrimitive` for `AnsiColor`. -/
def AnsiColor.fromU8 : Nat → Option AnsiColor
  | 0 => some .Black | 1 => some .Maroon | 2 => some .Green | 3 => some .Olive
  | 4 => some .Navy | 5 => some .Purple | 6 => some .Teal | 7 => some .Silver
  | 8 => some .Grey | 9 => some .Red | 10 => some .Lime | 11 => some .Yellow
  | 12 => some .Blue | 13 => some .Fuchsia | 14 => some .Aqua | 15 => some .White
  | _ => none

/-- `struct RgbColor { bits: u32 }` — MSB set means 10 bits per channel,
otherwise 8 bits per channel. -/
structure RgbColor where
  bits : Nat
deriving DecidableEq, Repr

/-- `const TEN_BITS: u16 = 0b11_1111_1111`. -/
def TEN_BITS : Nat := 1023

/-- `fn ten_to_eight(bits: u32) -> u8`:
`((bits as u16 & TEN_BITS) as f32 / MAX_TEN * 255.0) as u8`.
The `u16` cast wraps to 16 bits; the float division and multiplication
round to binary32; the `u8` cast truncates toward zero. -/
def ten_to_eight (bits : Nat) : Nat :=
  let v := (bits % 65536) &&& TEN_BITS
  flToU8 (flMul (flDiv (v : ℚ) 1023) 255)

/-- `RgbColor::new_8bpc(red, green, blue)` (components are `u8`). -/
def RgbColor.new_8bpc (red green blue : Nat) : RgbColor :=
  ⟨(red <<< 16) ||| (green <<< 8) ||| blue⟩

/-- `RgbColor::new_10bpc(red, green, blue)` (components are `u16`,
masked to ten bits and packed under the tag bit). -/
def RgbColor.new_10bpc (red green blue : Nat) : RgbColor :=
  ⟨0x80000000 ||| ((red &&& TEN_BITS) <<< 20) ||| ((green &&& TEN_BITS) <<< 10)
    ||| (blue &&& TEN_BITS)⟩

/-- `RgbColor::new_f32(red, green, blue)`: each component is multiplied by
`MAX_TEN = 1023.0` in `f32`, truncated to `u16`, and packed as 10bpc. -/
def RgbColor.new_f32 (red green blue : ℚ) : RgbColor :=
  RgbColor.new_10bpc (flToU16 (flMul red 1023)) (flToU16 (flMul green 1023))
    (flToU16 (flMul blue 1023))

/-- `RgbColor::to_tuple_rgb8`. -/
def RgbColor.to_tuple_rgb8 (self : RgbColor) : Nat × Nat × Nat :=
  if self.bits &&& 0x80000000 = 0 then
    ((self.bits >>> 16) % 256, (self.bits >>> 8) % 256, self.bits % 256)
  else
    (ten_to_eight (self.bits >>> 20), ten_to_eight (self.bits >>> 10),
      ten_to_eight self.bits)

/-! ### `RgbColor::from_rgb_str`

Strings are modelled as `List Char`; `Rust`'s `str::len` is the UTF-8 byte
length, computed by `utf8Len`. -/

/-- UTF-8 byte length of a string. -/
def utf8Len (s : List Char) : Nat := (s.map Char.utf8Size).sum

/-- Rust `char::to_digit(16)`, on code points (48–57 are `0`–`9`, 97–102
are `a`–`f`, 65–70 are `A`–`F`). -/
def to_digit16 (c : Char) : Option Nat :=
  if 48 ≤ c.toNat ∧ c.toNat ≤ 57 then some (c.toNat - 48)
  else if 97 ≤ c.toNat ∧ c.toNat ≤ 102 then some (c.toNat - 97 + 10)
  else if 65 ≤ c.toNat ∧ c.toNat ≤ 70 then some (c.toNat - 65 + 10)
  else none

/-- Whether `char::to_digit(16)` succeeds on `c`. -/
def isHexDigitChar (c : Char) : Bool := (to_digit16 c).isSome

/-- The loop inside the `digit!` macros of `from_rgb_str`: consume `d`
characters, accumulating `component = component << 4 | nybble` in a `u16`
(hence the wrap at `65536`).  The source unwraps `chars.next()`; running
out of characters is modelled as failure (it is unreachable: each accepted
digit is a one-byte character, and the loop never asks for more characters
than the byte length allows). -/
def parseHexGo : Nat → List Char → Nat → Option (Nat × List Char)
  | 0, cs, component => some (component, cs)
  | _ + 1, [], _ => none
  | d + 1, c :: cs, component =>
    match to_digit16 c with
    | none => none
    | some nybble => parseHexGo d cs (((component <<< 4) % 65536) ||| nybble)

/-- One channel of the `#` form: read `digits` hex characters and shift the
most significant bits into 8 (`XParseColor` `#` semantics), then `as u8`. -/
def hashChannel (digits : Nat) (cs : List Char) : Option (Nat × List Char) :=
  match parseHexGo digits cs 0 with
  | none => none
  | some (component, rest) =>
    match digits with
    | 1 => some ((component <<< 4) % 256, rest)
    | 2 => some (component % 256, rest)
    | 3 => some ((component >>> 4) % 256, rest)
    | 4 => some ((component >>> 8) % 256, rest)
    | _ => none

/-- One channel of the `rgb:` form: scale the value into 16 bits from the
number of digits given (`XParseColor` `rgb:` semantics), then `as u8`. -/
def rgbChannel (digits : Nat) (cs : List Char) : Option (Nat × List Char) :=
  match parseHexGo digits cs 0 with
  | none => none
  | some (component, rest) =>
    match digits with
    | 1 => some ((component ||| (component <<< 4)) % 256, rest)
    | 2 => some (component % 256, rest)
    | 3 => some ((component >>> 4) % 256, rest)
    | 4 => some ((component >>> 8) % 256, rest)
    | _ => none

/-- The `slash!` macro: the next character must be `/`. -/
def expectSlash (cs : List Char) : Option (List Char) :=
  match cs with
  | c :: rest => if c = '/' then some rest else none
  | [] => none

/-- Rust `str::split_ascii_whitespace` on a character list. -/
def splitAsciiWhitespace (s : List Char) : List (List Char) :=
  let groups := List.foldr
    (fun c acc =>
      if c = ' ' ∨ c = '\t' ∨ c = '\n' ∨ c = '\x0c' ∨ c = '\r' then
        [] :: acc
      else
        match acc with
        | g :: gs => (c :: g) :: gs
        | [] => [[c]])
    [[]] s
  groups.filter (fun g => ¬g.isEmpty)

/-- Rust `str::parse::<i32>()`: optional sign, one or more ASCII decimal
digits, value within the 32-bit signed range. -/
def parseI32 (s : List Char) : Option ℤ :=
  let (neg, digits) :=
    match s with
    | '-' :: rest => (true, rest)
    | '+' :: rest => (false, rest)
    | _ => (false, s)
  if digits.isEmpty ∨ ¬digits.all (fun c => '0' ≤ c ∧ c ≤ '9') then none
  else
    let v : ℤ := digits.foldl (fun acc c => 10 * acc + ((c.toNat - '0'.toNat : Nat) : ℤ)) 0
    let v := if neg then -v else v
    if v < -2147483648 ∨ 2147483647 < v then none else some v

/-- `fn hsl_to_rgb(hue, sat, light) -> (f32, f32, f32)` — the nested helper
of the `hsl:` branch, simulated in exact binary32 arithmetic.  The Rust `%`
on `i32` truncates (keeps the dividend's sign), hence `Int.tmod`. -/
def hsl_to_rgb (hue sat light : ℤ) : ℚ × ℚ × ℚ :=
  let hue := Int.tmod hue 360
  let hueF : ℚ := ((if hue < 0 then hue + 360 else hue : ℤ) : ℚ)
  let satF := flDiv (fl32 (sat : ℚ)) 100
  let lightF := flDiv (fl32 (light : ℚ)) 100
  let a := flMul satF (min lightF (flSub 1 lightF))
  let f : ℚ → ℚ := fun n =>
    let k := flRem (flAdd n (flDiv hueF 30)) 12
    flSub lightF (flMul a (max (min (min (flSub k 3) (flSub 9 k)) 1) (-1)))
  (f 0, f 8, f 4)

/-- `RgbColor::from_rgb_str(s)`.  The source's local variable
`digits` (`(len - 1) / 3` in the `#` branch, `(len - 3) / 3` minus one in
the `rgb:` branch) is written out in full at each use. -/
def RgbColor.from_rgb_str (s : List Char) : Option RgbColor :=
  if s.head? = some '#' then
    if 1 + (utf8Len s - 1) / 3 * 3 ≠ utf8Len s then none
    else if (utf8Len s - 1) / 3 = 0 ∨ (utf8Len s - 1) / 3 > 4 then none
    else
      match hashChannel ((utf8Len s - 1) / 3) (s.drop 1) with
      | none => none
      | some (red, cs) =>
        match hashChannel ((utf8Len s - 1) / 3) cs with
        | none => none
        | some (green, cs) =>
          match hashChannel ((utf8Len s - 1) / 3) cs with
          | none => none
          | some (blue, _) => some (RgbColor.new_8bpc red green blue)
  else if s.take 4 = ['r', 'g', 'b', ':'] ∧ utf8Len s > 6 then
    if 3 + (utf8Len s - 3) / 3 * 3 ≠ utf8Len s then none
    else
      if (utf8Len s - 3) / 3 - 1 = 0 ∨ (utf8Len s - 3) / 3 - 1 > 4 then none
      else
        match rgbChannel ((utf8Len s - 3) / 3 - 1) (s.drop 4) with
        | none => none
        | some (red, cs) =>
          match expectSlash cs with
          | none => none
          | some cs =>
            match rgbChannel ((utf8Len s - 3) / 3 - 1) cs with
            | none => none
            | some (green, cs) =>
              match expectSlash cs with
              | none => none
              | some cs =>
                match rgbChannel ((utf8Len s - 3) / 3 - 1) cs with
                | none => none
                | some (blue, _) => some (RgbColor.new_8bpc red green blue)
  else if s.take 4 = ['h', 's', 'l', ':'] then
    match splitAsciiWhitespace (s.drop 4) with
    | [f0, f1, f2] =>
      match parseI32 f0, parseI32 f1, parseI32 f2 with
      | some h, some sat, some l =>
        let (r, g, b) := hsl_to_rgb h sat l
        some (RgbColor.new_f32 r g b)
      | _, _, _ => none
    | _ => none
  else none

end color

namespace csi

/-! ## src/escape/csi.rs

The `cell` and `color` modules of the crate containing `csi.rs` are not
part of the sources under verification; the small value types it imports
from them are modelled from the spec below.  `AnsiColor` is shared with
the `color` namespace (same sixteen variants and discriminants). -/

/-- Modelled from the spec: `cell::Intensity` (spec section 3, SGR
attribute `Intensity(Bold/Half/Normal)`). -/
inductive Intensity where
  | Bold | Half | Normal
deriving DecidableEq, Repr

/-- Modelled from the spec: `cell::Underline` (spec section 3, SGR
attribute `Underline(Single/Double/None)`). -/
inductive Underline where
  | Single | Double | None
deriving DecidableEq, Repr

/-- Modelled from the spec: `cell::Blink` (spec section 3, SGR attribute
`Blink(Slow/Rapid/None)`). -/
inductive Blink where
  | Slow | Rapid | None
deriving DecidableEq, Repr

/-- Modelled from the spec: the `color::RgbColor` used by `csi.rs` (an
earlier revision of the color module, with plain 8-bit `red`/`green`/`blue`
fields accessed as `c.red` etc. by the encoder). -/
structure RgbColor where
  red : Nat
  green : Nat
  blue : Nat
deriving DecidableEq, Repr

/-- `RgbColor::new(red, green, blue)`. -/
def RgbColor.new (red green blue : Nat) : RgbColor := ⟨red, green, blue⟩

/-- Modelled from the spec: the `color::ColorSpec` used by `csi.rs`
(spec section 3: Default, PaletteIndex 0–255, TrueColor). -/
inductive ColorSpec where
  | Default
  | PaletteIndex (idx : Nat)
  | TrueColor (color : RgbColor)
deriving DecidableEq, Repr

/-- `From<AnsiColor> for ColorSpec`: the palette index of the ANSI color. -/
def ColorSpec.ofAnsi (c : color.AnsiColor) : ColorSpec :=
  ColorSpec.PaletteIndex c.toU8

/-- `enum Font`. -/
inductive Font where
  | Default
  | Alternate (n : Nat)
deriving DecidableEq, Repr

/-- `enum Sgr`. -/
inductive Sgr where
  | Reset
  | Intensity (i : csi.Intensity)
  | Underline (u : csi.Underline)
  | Blink (b : csi.Blink)
  | Italic (v : Bool)
  | Inverse (v : Bool)
  | Invisible (v : Bool)
  | StrikeThrough (v : Bool)
  | Font (f : csi.Font)
  | Foreground (c : ColorSpec)
  | Background (c : ColorSpec)
deriving DecidableEq, Repr

/-- `enum CursorTabulationControl`. -/
inductive CursorTabulationControl where
  | SetCharacterTabStopAtActivePosition
  | SetLineTabStopAtActiveLine
  | ClearCharacterTabStopAtActivePosition
  | ClearLineTabstopAtActiveLine
  | ClearAllCharacterTabStopsAtActiveLine
  | ClearAllCharacterTabStops
  | ClearAllLineTabStops
deriving DecidableEq, Repr

/-- The discriminant of a `CursorTabulationControl` (`n as u8`). -/
def CursorTabulationControl.toU8 : CursorTabulationControl → Nat
  | .SetCharacterTabStopAtActivePosition => 0
  | .SetLineTabStopAtActiveLine => 1
  | .ClearCharacterTabStopAtActivePosition => 2
  | .ClearLineTabstopAtActiveLine => 3
  | .ClearAllCharacterTabStopsAtActiveLine => 4
  | .ClearAllCharacterTabStops => 5
  | .ClearAllLineTabStops => 6

/-- Derived `FromPrimitive` for `CursorTabulationControl`. -/
def CursorTabulationControl.fromI64 : ℤ → Option CursorTabulationControl
  | 0 => some .SetCharacterTabStopAtActivePosition
  | 1 => some .SetLineTabStopAtActiveLine
  | 2 => some .ClearCharacterTabStopAtActivePosition
  | 3 => some .ClearLineTabstopAtActiveLine
  | 4 => some .ClearAllCharacterTabStopsAtActiveLine
  | 5 => some .ClearAllCharacterTabStops
  | 6 => some .ClearAllLineTabStops
  | _ => none

/-- `enum Cursor`. -/
inductive Cursor where
  | BackwardTabulation (n : Nat)
  | CharacterAbsolute (col : Nat)
  | ForwardTabulation (n : Nat)
  | NextLine (n : Nat)
  | PrecedingLine (n : Nat)
  | ActivePositionReport (line : Nat) (col : Nat)
  | TabulationControl (t : CursorTabulationControl)
  | Left (n : Nat)
  | Down (n : Nat)
  | Right (n : Nat)
  | Position (line : Nat) (col : Nat)
  | Up (n : Nat)
  | LineTabulation (n : Nat)
deriving DecidableEq, Repr

/-- `enum CSI`.  The hidden `__Nonexhaustive` variant carries no data and
is never produced; it is omitted. -/
inductive CSI where
  | Sgr (sgr : csi.Sgr)
  | Cursor (cursor : csi.Cursor)
  | Unspecified (params : List ℤ) (intermediates : List Nat)
      (ignored_extra_intermediates : Bool) (control : Char)
deriving DecidableEq, Repr

/-- `enum SgrCode`. -/
inductive SgrCode where
  | Reset
  | IntensityBold
  | IntensityDim
  | ItalicOn
  | UnderlineOn
  | BlinkOn
  | RapidBlinkOn
  | InverseOn
  | InvisibleOn
  | StrikeThroughOn
  | DefaultFont
  | AltFont1 | AltFont2 | AltFont3 | AltFont4 | AltFont5
  | AltFont6 | AltFont7 | AltFont8 | AltFont9
  | UnderlineDouble
  | NormalIntensity
  | ItalicOff
  | UnderlineOff
  | BlinkOff
  | InverseOff
  | InvisibleOff
  | StrikeThroughOff
  | ForegroundBlack | ForegroundRed | ForegroundGreen | ForegroundYellow
  | ForegroundBlue | ForegroundMagenta | ForegroundCyan | ForegroundWhite
  | ForegroundDefault
  | BackgroundBlack | BackgroundRed | BackgroundGreen | BackgroundYellow
  | BackgroundBlue | BackgroundMagenta | BackgroundCyan | BackgroundWhite
  | BackgroundDefault
  | ForegroundBrightBlack | ForegroundBrightRed | ForegroundBrightGreen
  | ForegroundBrightYellow | ForegroundBrightBlue | ForegroundBrightMagenta
  | ForegroundBrightCyan | ForegroundBrightWhite
  | BackgroundBrightBlack | BackgroundBrightRed | BackgroundBrightGreen
  | BackgroundBrightYellow | BackgroundBrightBlue | BackgroundBrightMagenta
  | BackgroundBrightCyan | BackgroundBrightWhite
  | ForegroundColor
  | BackgroundColor
deriving DecidableEq, Repr

/-- The discriminant of an `SgrCode` (`SgrCode::X as i64`). -/
def SgrCode.toI64 : SgrCode → ℤ
  | .Reset => 0
  | .IntensityBold => 1
  | .IntensityDim => 2
  | .ItalicOn => 3
  | .UnderlineOn => 4
  | .BlinkOn => 5
  | .RapidBlinkOn => 6
  | .InverseOn => 7
  | .InvisibleOn => 8
  | .StrikeThroughOn => 9
  | .DefaultFont => 10
  | .AltFont1 => 11
  | .AltFont2 => 12
  | .AltFont3 => 13
  | .AltFont4 => 14
  | .AltFont5 => 15
  | .AltFont6 => 16
  | .AltFont7 => 17
  | .AltFont8 => 18
  | .AltFont9 => 19
  | .UnderlineDouble => 21
  | .NormalIntensity => 22
  | .ItalicOff => 23
  | .UnderlineOff => 24
  | .BlinkOff => 25
  | .InverseOff => 27
  | .InvisibleOff => 28
  | .StrikeThroughOff => 29
  | .ForegroundBlack => 30
  | .ForegroundRed => 31
  | .ForegroundGreen => 32
  | .ForegroundYellow => 33
  | .ForegroundBlue => 34
  | .ForegroundMagenta => 35
  | .ForegroundCyan => 36
  | .ForegroundWhite => 37
  | .ForegroundDefault => 39
  | .BackgroundBlack => 40
  | .BackgroundRed => 41
  | .BackgroundGreen => 42
  | .BackgroundYellow => 43
  | .BackgroundBlue => 44
  | .BackgroundMagenta => 45
  | .BackgroundCyan => 46
  | .BackgroundWhite => 47
  | .BackgroundDefault => 49
  | .ForegroundBrightBlack => 90
  | .ForegroundBrightRed => 91
  | .ForegroundBrightGreen => 92
  | .ForegroundBrightYellow => 93
  | .ForegroundBrightBlue => 94
  | .ForegroundBrightMagenta => 95
  | .ForegroundBrightCyan => 96
  | .ForegroundBrightWhite => 97
  | .BackgroundBrightBlack => 100
  | .BackgroundBrightRed => 101
  | .BackgroundBrightGreen => 102
  | .BackgroundBrightYellow => 103
  | .BackgroundBrightBlue => 104
  | .BackgroundBrightMagenta => 105
  | .BackgroundBrightCyan => 106
  | .BackgroundBrightWhite => 107
  | .ForegroundColor => 38
  | .BackgroundColor => 48

/-- Derived `FromPrimitive` for `SgrCode`. -/
def SgrCode.fromI64 : ℤ → Option SgrCode
  | 0 => some .Reset
  | 1 => some .IntensityBold
  | 2 => some .IntensityDim
  | 3 => some .ItalicOn
  | 4 => some .UnderlineOn
  | 5 => some .BlinkOn
  | 6 => some .RapidBlinkOn
  | 7 => some .InverseOn
  | 8 => some .InvisibleOn
  | 9 => some .StrikeThroughOn
  | 10 => some .DefaultFont
  | 11 => some .AltFont1
  | 12 => some .AltFont2
  | 13 => some .AltFont3
  | 14 => some .AltFont4
  | 15 => some .AltFont5
  | 16 => some .AltFont6
  | 17 => some .AltFont7
  | 18 => some .AltFont8
  | 19 => some .AltFont9
  | 21 => some .UnderlineDouble
  | 22 => some .NormalIntensity
  | 23 => some .ItalicOff
  | 24 => some .UnderlineOff
  | 25 => some .BlinkOff
  | 27 => some .InverseOff
  | 28 => some .InvisibleOff
  | 29 => some .StrikeThroughOff
  | 30 => some .ForegroundBlack
  | 31 => some .ForegroundRed
  | 32 => some .ForegroundGreen
  | 33 => some .ForegroundYellow
  | 34 => some .ForegroundBlue
  | 35 => some .ForegroundMagenta
  | 36 => some .ForegroundCyan
  | 37 => some .ForegroundWhite
  | 39 => some .ForegroundDefault
  | 40 => some .BackgroundBlack
  | 41 => some .BackgroundRed
  | 42 => some .BackgroundGreen
  | 43 => some .BackgroundYellow
  | 44 => some .BackgroundBlue
  | 45 => some .BackgroundMagenta
  | 46 => some .BackgroundCyan
  | 47 => some .BackgroundWhite
  | 49 => some .BackgroundDefault
  | 90 => some .ForegroundBrightBlack
  | 91 => some .ForegroundBrightRed
  | 92 => some .ForegroundBrightGreen
  | 93 => some .ForegroundBrightYellow
  | 94 => some .ForegroundBrightBlue
  | 95 => some .ForegroundBrightMagenta
  | 96 => some .ForegroundBrightCyan
  | 97 => some .ForegroundBrightWhite
  | 100 => some .BackgroundBrightBlack
  | 101 => some .BackgroundBrightRed
  | 102 => some .BackgroundBrightGreen
  | 103 => some .BackgroundBrightYellow
  | 104 => some .BackgroundBrightBlue
  | 105 => some .BackgroundBrightMagenta
  | 106 => some .BackgroundBrightCyan
  | 107 => some .BackgroundBrightWhite
  | 38 => some .ForegroundColor
  | 48 => some .BackgroundColor
  | _ => none

/-! ### The parsing iterator (`CSIParser`)

The iterator state is `params : Option (List ℤ)`; `advance_by` reinstates
`Some` only when parameters remain.  The Rust `Result<_, ()>` is modelled
as `Option`.  A parse step returns the action together with the new
iterator state. -/

/-- `fn to_u8(v: i64) -> Result<u8, ()>`.  The source only checks the
upper bound; `v as u8` keeps the low eight bits of the two's complement
representation, which for `v ≤ 255` is `v mod 256`. -/
def to_u8 (v : ℤ) : Option Nat :=
  if v ≤ 255 then some (v % 256).toNat else none

/-- `fn to_u32(v: i64) -> Result<u32, ()>`. -/
def to_u32 (v : ℤ) : Option Nat :=
  if 0 ≤ v ∧ v ≤ 4294967295 then some v.toNat else none

/-- `CSIParser::advance_by`: drop the consumed parameters; the iterator
state becomes `none` (stop) when nothing remains. -/
def advance_by (n : Nat) (params : List ℤ) : Option (List ℤ) :=
  let next := params.drop n
  if next.isEmpty then none else some next

/-- The `one!` macro of `CSIParser::sgr`: consume a single parameter and
return the given attribute. -/
def sgrOne (params : List ℤ) (t : Sgr) : Option (Sgr × Option (List ℤ)) :=
  some (t, advance_by 1 params)

/-- `CSIParser::parse_sgr_color`. -/
def parse_sgr_color (params : List ℤ) : Option (ColorSpec × Option (List ℤ)) :=
  if 5 ≤ params.length ∧ params.getD 1 0 = 2 then
    match to_u8 (params.getD 2 0), to_u8 (params.getD 3 0), to_u8 (params.getD 4 0) with
    | some red, some green, some blue =>
      some (ColorSpec.TrueColor (RgbColor.new red green blue), advance_by 5 params)
    | _, _, _ => none
  else if 3 ≤ params.length ∧ params.getD 1 0 = 5 then
    match to_u8 (params.getD 2 0) with
    | some idx => some (ColorSpec.PaletteIndex idx, advance_by 3 params)
    | none => none
  else none

/-- `CSIParser::sgr`.  An empty parameter list is treated as `Reset`
without touching the iterator state (which therefore stops). -/
def sgr (params : List ℤ) : Option (Sgr × Option (List ℤ)) :=
  match params with
  | [] => some (Sgr.Reset, none)
  | p0 :: _ =>
    match SgrCode.fromI64 p0 with
    | none => none
    | some code =>
      match code with
      | .Reset => sgrOne params Sgr.Reset
      | .IntensityBold => sgrOne params (Sgr.Intensity Intensity.Bold)
      | .IntensityDim => sgrOne params (Sgr.Intensity Intensity.Half)
      | .NormalIntensity => sgrOne params (Sgr.Intensity Intensity.Normal)
      | .UnderlineOn => sgrOne params (Sgr.Underline Underline.Single)
      | .UnderlineDouble => sgrOne params (Sgr.Underline Underline.Double)
      | .UnderlineOff => sgrOne params (Sgr.Underline Underline.None)
      | .BlinkOn => sgrOne params (Sgr.Blink Blink.Slow)
      | .RapidBlinkOn => sgrOne params (Sgr.Blink Blink.Rapid)
      | .BlinkOff => sgrOne params (Sgr.Blink Blink.None)
      | .ItalicOn => sgrOne params (Sgr.Italic true)
      | .ItalicOff => sgrOne params (Sgr.Italic false)
      | .ForegroundColor =>
        (parse_sgr_color params).map (fun x => (Sgr.Foreground x.1, x.2))
      | .ForegroundBlack => sgrOne params (Sgr.Foreground (ColorSpec.ofAnsi .Black))
      | .ForegroundRed => sgrOne params (Sgr.Foreground (ColorSpec.ofAnsi .Maroon))
      | .ForegroundGreen => sgrOne params (Sgr.Foreground (ColorSpec.ofAnsi .Green))
      | .ForegroundYellow => sgrOne params (Sgr.Foreground (ColorSpec.ofAnsi .Olive))
      | .ForegroundBlue => sgrOne params (Sgr.Foreground (ColorSpec.ofAnsi .Navy))
      | .ForegroundMagenta => sgrOne params (Sgr.Foreground (ColorSpec.ofAnsi .Purple))
      | .ForegroundCyan => sgrOne params (Sgr.Foreground (ColorSpec.ofAnsi .Teal))
      | .ForegroundWhite => sgrOne params (Sgr.Foreground (ColorSpec.ofAnsi .Silver))
      | .ForegroundDefault => sgrOne params (Sgr.Foreground ColorSpec.Default)
      | .ForegroundBrightBlack => sgrOne params (Sgr.Foreground (ColorSpec.ofAnsi .Grey))
      | .ForegroundBrightRed => sgrOne params (Sgr.Foreground (ColorSpec.ofAnsi .Red))
      | .ForegroundBrightGreen => sgrOne params (Sgr.Foreground (ColorSpec.ofAnsi .Lime))
      | .ForegroundBrightYellow => sgrOne params (Sgr.Foreground (ColorSpec.ofAnsi .Yellow))
      | .ForegroundBrightBlue => sgrOne params (Sgr.Foreground (ColorSpec.ofAnsi .Blue))
      | .ForegroundBrightMagenta => sgrOne params (Sgr.Foreground (ColorSpec.ofAnsi .Fuchsia))
      | .ForegroundBrightCyan => sgrOne params (Sgr.Foreground (ColorSpec.ofAnsi .Aqua))
      | .ForegroundBrightWhite => sgrOne params (Sgr.Foreground (ColorSpec.ofAnsi .White))
      | .BackgroundColor =>
        (parse_sgr_color params).map (fun x => (Sgr.Background x.1, x.2))
      | .BackgroundBlack => sgrOne params (Sgr.Background (ColorSpec.ofAnsi .Black))
      | .BackgroundRed => sgrOne params (Sgr.Background (ColorSpec.ofAnsi .Maroon))
      | .BackgroundGreen => sgrOne params (Sgr.Background (ColorSpec.ofAnsi .Green))
      | .BackgroundYellow => sgrOne params (Sgr.Background (ColorSpec.ofAnsi .Olive))
      | .BackgroundBlue => sgrOne params (Sgr.Background (ColorSpec.ofAnsi .Navy))
      | .BackgroundMagenta => sgrOne params (Sgr.Background (ColorSpec.ofAnsi .Purple))
      | .BackgroundCyan => sgrOne params (Sgr.Background (ColorSpec.ofAnsi .Teal))
      | .BackgroundWhite => sgrOne params (Sgr.Background (ColorSpec.ofAnsi .Silver))
      | .BackgroundDefault => sgrOne params (Sgr.Background ColorSpec.Default)
      | .BackgroundBrightBlack => sgrOne params (Sgr.Background (ColorSpec.ofAnsi .Grey))
      | .BackgroundBrightRed => sgrOne params (Sgr.Background (ColorSpec.ofAnsi .Red))
      | .BackgroundBrightGreen => sgrOne params (Sgr.Background (ColorSpec.ofAnsi .Lime))
      | .BackgroundBrightYellow => sgrOne params (Sgr.Background (ColorSpec.ofAnsi .Yellow))
      | .BackgroundBrightBlue => sgrOne params (Sgr.Background (ColorSpec.ofAnsi .Blue))
      | .BackgroundBrightMagenta => sgrOne params (Sgr.Background (ColorSpec.ofAnsi .Fuchsia))
      | .BackgroundBrightCyan => sgrOne params (Sgr.Background (ColorSpec.ofAnsi .Aqua))
      | .BackgroundBrightWhite => sgrOne params (Sgr.Background (ColorSpec.ofAnsi .White))
      | .InverseOn => sgrOne params (Sgr.Inverse true)
      | .InverseOff => sgrOne params (Sgr.Inverse false)
      | .InvisibleOn => sgrOne params (Sgr.Invisible true)
      | .InvisibleOff => sgrOne params (Sgr.Invisible false)
      | .StrikeThroughOn => sgrOne params (Sgr.StrikeThrough true)
      | .StrikeThroughOff => sgrOne params (Sgr.StrikeThrough false)
      | .DefaultFont => sgrOne params (Sgr.Font Font.Default)
      | .AltFont1 => sgrOne params (Sgr.Font (Font.Alternate 1))
      | .AltFont2 => sgrOne params (Sgr.Font (Font.Alternate 2))
      | .AltFont3 => sgrOne params (Sgr.Font (Font.Alternate 3))
      | .AltFont4 => sgrOne params (Sgr.Font (Font.Alternate 4))
      | .AltFont5 => sgrOne params (Sgr.Font (Font.Alternate 5))
      | .AltFont6 => sgrOne params (Sgr.Font (Font.Alternate 6))
      | .AltFont7 => sgrOne params (Sgr.Font (Font.Alternate 7))
      | .AltFont8 => sgrOne params (Sgr.Font (Font.Alternate 8))
      | .AltFont9 => sgrOne params (Sgr.Font (Font.Alternate 9))

/-- `CSIParser::parse_next`, which matches on
`(self.control, self.intermediates, params)`: every arm requires empty
intermediates, and each control character admits the parameter arities
listed in the source.  Cursor arms do not call `advance_by`, so they leave
the iterator state `none` (stop). -/
def parse_next (control : Char) (intermediates : List Nat) (params : List ℤ) :
    Option (CSI × Option (List ℤ)) :=
  match intermediates with
  | _ :: _ => none
  | [] =>
    if control = 'm' then (sgr params).map (fun x => (CSI.Sgr x.1, x.2))
    else if control = 'Z' then
      match params with
      | [] => some (CSI.Cursor (Cursor.BackwardTabulation 1), none)
      | [n] => (to_u32 n).map (fun v => (CSI.Cursor (Cursor.BackwardTabulation v), none))
      | _ => none
    else if control = 'G' then
      match params with
      | [] => some (CSI.Cursor (Cursor.CharacterAbsolute 1), none)
      | [n] => (to_u32 n).map (fun v => (CSI.Cursor (Cursor.CharacterAbsolute v), none))
      | _ => none
    else if control = 'I' then
      match params with
      | [] => some (CSI.Cursor (Cursor.ForwardTabulation 1), none)
      | [n] => (to_u32 n).map (fun v => (CSI.Cursor (Cursor.ForwardTabulation v), none))
      | _ => none
    else if control = 'E' then
      match params with
      | [] => some (CSI.Cursor (Cursor.NextLine 1), none)
      | [n] => (to_u32 n).map (fun v => (CSI.Cursor (Cursor.NextLine v), none))
      | _ => none
    else if control = 'F' then
      match params with
      | [] => some (CSI.Cursor (Cursor.PrecedingLine 1), none)
      | [n] => (to_u32 n).map (fun v => (CSI.Cursor (Cursor.PrecedingLine v), none))
      | _ => none
    else if control = 'R' then
      match params with
      | [line, col] =>
        match to_u32 line, to_u32 col with
        | some l, some c => some (CSI.Cursor (Cursor.ActivePositionReport l c), none)
        | _, _ => none
      | _ => none
    else if control = 'D' then
      match params with
      | [] => some (CSI.Cursor (Cursor.Left 1), none)
      | [n] => (to_u32 n).map (fun v => (CSI.Cursor (Cursor.Left v), none))
      | _ => none
    else if control = 'B' then
      match params with
      | [] => some (CSI.Cursor (Cursor.Down 1), none)
      | [n] => (to_u32 n).map (fun v => (CSI.Cursor (Cursor.Down v), none))
      | _ => none
    else if control = 'C' then
      match params with
      | [] => some (CSI.Cursor (Cursor.Right 1), none)
      | [n] => (to_u32 n).map (fun v => (CSI.Cursor (Cursor.Right v), none))
      | _ => none
    else if control = 'Y' then
      match params with
      | [] => some (CSI.Cursor (Cursor.LineTabulation 1), none)
      | [n] => (to_u32 n).map (fun v => (CSI.Cursor (Cursor.LineTabulation v), none))
      | _ => none
    else if control = 'W' then
      match params with
      | [] =>
        some (CSI.Cursor (Cursor.TabulationControl
          CursorTabulationControl.SetCharacterTabStopAtActivePosition), none)
      | [n] =>
        (CursorTabulationControl.fromI64 n).map
          (fun t => (CSI.Cursor (Cursor.TabulationControl t), none))
      | _ => none
    else if control = 'H' then
      match params with
      | [line, col] =>
        match to_u32 line, to_u32 col with
        | some l, some c => some (CSI.Cursor (Cursor.Position l c), none)
        | _, _ => none
      | _ => none
    else none

/-- The `Iterator for CSIParser` loop, with the current parameter slice as
explicit state.  On classification failure the entire remaining slice is
wrapped into one `Unspecified` and the iteration ends; on success the
yielded action is followed by the iteration on the remaining slice (if
any).  The fuel argument makes the recursion structural; each continuing
step consumes at least one parameter, so `params.length + 1` fuel always
suffices. -/
def csiRunFuel (control : Char) (intermediates : List Nat)
    (ignored_extra_intermediates : Bool) : Nat → List ℤ → List CSI
  | 0, _ => []
  | fuel + 1, params =>
    match parse_next control intermediates params with
    | none =>
      [CSI.Unspecified params intermediates ignored_extra_intermediates control]
    | some (action, none) => [action]
    | some (action, some rest) =>
      action :: csiRunFuel control intermediates ignored_extra_intermediates fuel rest

/-- `CSI::parse(params, intermediates, ignored_extra_intermediates,
control)`: the list of actions the returned iterator yields. -/
def CSI.parse (params : List ℤ) (intermediates : List Nat)
    (ignored_extra_intermediates : Bool) (control : Char) : List CSI :=
  csiRunFuel control intermediates ignored_extra_intermediates
    (params.length + 1) params

/-! ### The `EncodeEscape` impls

Encoders produce the emitted bytes as a `List Char` (all emitted
characters are ASCII). -/

/-- Decimal digits of a natural number, as written by `write!`. -/
def natChars (n : Nat) : List Char := Nat.toDigits 10 n

/-- Decimal representation of an `i64`, as written by `write!`. -/
def intChars (i : ℤ) : List Char :=
  if i < 0 then '-' :: natChars i.natAbs else natChars i.toNat

/-- The `write_csi!` macro: emit the control characters alone when the
parameter is 1, otherwise the parameter followed by the control. -/
def write_csi (control : List Char) (p1 : Nat) : List Char :=
  if p1 = 1 then control else natChars p1 ++ control

/-- `impl EncodeEscape for Cursor`. -/
def Cursor.encode_escape : Cursor → List Char
  | .BackwardTabulation n => write_csi ['Z'] n
  | .CharacterAbsolute col => write_csi ['G'] col
  | .ForwardTabulation n => write_csi ['I'] n
  | .NextLine n => write_csi ['E'] n
  | .PrecedingLine n => write_csi ['F'] n
  | .ActivePositionReport line col => natChars line ++ ';' :: natChars col ++ ['R']
  | .Left n => write_csi ['D'] n
  | .Down n => write_csi ['B'] n
  | .Right n => write_csi ['C'] n
  | .Up n => write_csi ['A'] n
  | .Position line col => natChars line ++ ';' :: natChars col ++ ['H']
  | .LineTabulation n => write_csi ['Y'] n
  | .TabulationControl t => write_csi ['W'] t.toU8

/-- The `code!` macro of the `Sgr` encoder: `write!(w, "{}m", code as i64)`. -/
def sgrCodeChars (code : SgrCode) : List Char := intChars code.toI64 ++ ['m']

/-- The `ansi_color!` macro: a palette index naming one of the sixteen
ANSI colors is emitted as its dedicated short code, any other index in the
extended `<selector>;5;<idx>m` form. -/
def ansiColorChars (idx : Nat) (eightbit : SgrCode) (codes : List SgrCode) :
    List Char :=
  match color.AnsiColor.fromU8 idx with
  | some ansi => sgrCodeChars (codes.getD ansi.toU8 eightbit)
  | none => intChars eightbit.toI64 ++ ';' :: '5' :: ';' :: natChars idx ++ ['m']

/-- The per-`AnsiColor` code table of the `ansi_color!` invocation for
foregrounds, in declaration order `Black .. White`. -/
def foregroundAnsiCodes : List SgrCode :=
  [.ForegroundBlack, .ForegroundRed, .ForegroundGreen, .ForegroundYellow,
   .ForegroundBlue, .ForegroundMagenta, .ForegroundCyan, .ForegroundWhite,
   .ForegroundBrightBlack, .ForegroundBrightRed, .ForegroundBrightGreen,
   .ForegroundBrightYellow, .ForegroundBrightBlue, .ForegroundBrightMagenta,
   .ForegroundBrightCyan, .ForegroundBrightWhite]

/-- The per-`AnsiColor` code table of the `ansi_color!` invocation for
backgrounds, in declaration order `Black .. White`. -/
def backgroundAnsiCodes : List SgrCode :=
  [.BackgroundBlack, .BackgroundRed, .BackgroundGreen, .BackgroundYellow,
   .BackgroundBlue, .BackgroundMagenta, .BackgroundCyan, .BackgroundWhite,
   .BackgroundBrightBlack, .BackgroundBrightRed, .BackgroundBrightGreen,
   .BackgroundBrightYellow, .BackgroundBrightBlue, .BackgroundBrightMagenta,
   .BackgroundBrightCyan, .BackgroundBrightWhite]

/-- `impl EncodeEscape for Sgr`. -/
def Sgr.encode_escape : Sgr → List Char
  | .Reset => sgrCodeChars .Reset
  | .Intensity .Bold => sgrCodeChars .IntensityBold
  | .Intensity .Half => sgrCodeChars .IntensityDim
  | .Intensity .Normal => sgrCodeChars .NormalIntensity
  | .Underline .Single => sgrCodeChars .UnderlineOn
  | .Underline .Double => sgrCodeChars .UnderlineDouble
  | .Underline .None => sgrCodeChars .UnderlineOff
  | .Blink .Slow => sgrCodeChars .BlinkOn
  | .Blink .Rapid => sgrCodeChars .RapidBlinkOn
  | .Blink .None => sgrCodeChars .BlinkOff
  | .Italic true => sgrCodeChars .ItalicOn
  | .Italic false => sgrCodeChars .ItalicOff
  | .Inverse true => sgrCodeChars .InverseOn
  | .Inverse false => sgrCodeChars .InverseOff
  | .Invisible true => sgrCodeChars .InvisibleOn
  | .Invisible false => sgrCodeChars .InvisibleOff
  | .StrikeThrough true => sgrCodeChars .StrikeThroughOn
  | .StrikeThrough false => sgrCodeChars .StrikeThroughOff
  | .Font .Default => sgrCodeChars .DefaultFont
  | .Font (.Alternate 1) => sgrCodeChars .AltFont1
  | .Font (.Alternate 2) => sgrCodeChars .AltFont2
  | .Font (.Alternate 3) => sgrCodeChars .AltFont3
  | .Font (.Alternate 4) => sgrCodeChars .AltFont4
  | .Font (.Alternate 5) => sgrCodeChars .AltFont5
  | .Font (.Alternate 6) => sgrCodeChars .AltFont6
  | .Font (.Alternate 7) => sgrCodeChars .AltFont7
  | .Font (.Alternate 8) => sgrCodeChars .AltFont8
  | .Font (.Alternate 9) => sgrCodeChars .AltFont9
  | .Font (.Alternate _) => []
  | .Foreground .Default => sgrCodeChars .ForegroundDefault
  | .Background .Default => sgrCodeChars .BackgroundDefault
  | .Foreground (.PaletteIndex idx) =>
    ansiColorChars idx .ForegroundColor foregroundAnsiCodes
  | .Foreground (.TrueColor c) =>
    intChars SgrCode.ForegroundColor.toI64 ++ ';' :: '2' :: ';' :: natChars c.red
      ++ ';' :: natChars c.green ++ ';' :: natChars c.blue ++ ['m']
  | .Background (.PaletteIndex idx) =>
    ansiColorChars idx .BackgroundColor backgroundAnsiCodes
  | .Background (.TrueColor c) =>
    intChars SgrCode.BackgroundColor.toI64 ++ ';' :: '2' :: ';' :: natChars c.red
      ++ ';' :: natChars c.green ++ ';' :: natChars c.blue ++ ['m']

/-- The parameter portion of the `Unspecified` encoder: parameters
semicolon-joined in order (`write!` with `";{}"` after the first). -/
def paramsChars (params : List ℤ) : List Char :=
  match params with
  | [] => []
  | p :: rest => intChars p ++ rest.flatMap (fun q => ';' :: intChars q)

/-- `impl EncodeEscape for CSI`: the two-byte introducer `ESC [` followed
by the variant's own encoding.  Note that the `Unspecified` arm writes
each stored intermediate with `write!(w, "{}", i)`, i.e. as the decimal
representation of the byte, not as the raw byte. -/
def CSI.encode_escape : CSI → List Char
  | .Sgr s => '' :: '[' :: s.encode_escape
  | .Cursor c => '' :: '[' :: c.encode_escape
  | .Unspecified params intermediates _ control =>
    '' :: '[' :: (paramsChars params
      ++ intermediates.flatMap (fun i => natChars i) ++ [control])

end csi

/-! ## A minimal CSI lexer for round-trip statements -/

/-- Splits a character list at every `;`. -/
def splitSemis : List Char → List (List Char)
  | [] => [[]]
  | c :: rest =>
    let r := splitSemis rest
    if c = ';' then [] :: r
    else
      match r with
      | g :: gs => (c :: g) :: gs
      | [] => [[c]]

/-- A non-empty all-decimal-digit group read as a number. -/
def parseDecParam (cs : List Char) : Option ℤ :=
  if cs.isEmpty ∨ ¬cs.all (fun c => '0' ≤ c ∧ c ≤ '9') then none
  else some (cs.foldl (fun acc c => 10 * acc + ((c.toNat - '0'.toNat : Nat) : ℤ)) 0)

/-- Modelled from the spec: the upstream byte-stream lexer (spec section 6)
that splits a CSI unit `ESC [ <params> <final>` into its numeric
parameters and final character.  Only the fragment this development needs
is modelled: no intermediate bytes, and every parameter fully written out
in decimal. -/
def lexCsi (cs : List Char) : Option (List ℤ × Char) :=
  match cs with
  | '' :: '[' :: rest =>
    match rest.getLast? with
    | none => none
    | some ctl =>
      if 0x40 ≤ ctl.toNat ∧ ctl.toNat ≤ 0x7e then
        let body := rest.dropLast
        if body.isEmpty then some ([], ctl)
        else
          match (splitSemis body).mapM parseDecParam with
          | some params => some (params, ctl)
          | none => none
      else none
  | _ => none

/-! ## Claim-side definitions -/

/-- Whether a CSI action is an `Sgr` attribute. -/
def isSgrAction : csi.CSI → Bool
  | .Sgr _ => true
  | _ => false

/-- Whether a CSI action is the `Unspecified` fallback. -/
def isUnspecAction : csi.CSI → Bool
  | .Unspecified _ _ _ _ => true
  | _ => false

/-- No action of the list is the `Unspecified` fallback. -/
def noUnspecified (l : List csi.CSI) : Bool := l.all (fun a => !isUnspecAction a)

/-- Every SGR numeric code of the fixed table that is classifiable from a
single parameter: all discriminants of `SgrCode` except the two extended
color selectors 38 and 48. -/
def singleSgrCodes : List ℤ :=
  [0, 1, 2, 3, 4, 5, 6, 7, 8, 9, 10, 11, 12, 13, 14, 15, 16, 17, 18, 19,
   21, 22, 23, 24, 25, 27, 28, 29,
   30, 31, 32, 33, 34, 35, 36, 37, 39,
   40, 41, 42, 43, 44, 45, 46, 47, 49,
   90, 91, 92, 93, 94, 95, 96, 97,
   100, 101, 102, 103, 104, 105, 106, 107]

/-- Encode an action, lex the produced byte sequence back into parameters
and final character, and classify it again. -/
def reDecode (a : csi.CSI) : Option (List csi.CSI) :=
  match lexCsi a.encode_escape with
  | some (ps, ctl) => some (csi.CSI.parse ps [] false ctl)
  | none => none

/-- The big-endian number denoted by a list of hex digit characters. -/
def hexValBE (cs : List Char) : Nat :=
  cs.foldl (fun acc c => 16 * acc + (color.to_digit16 c).getD 0) 0

/-- The per-channel scaling rule of the `#` color form, as the spec states
it: shift the `d`-digit big-endian value to 8 bits. -/
def hashScale (d v : Nat) : Nat :=
  match d with
  | 1 => v <<< 4
  | 2 => v
  | 3 => v >>> 4
  | _ => v >>> 8

/-- The per-channel scaling rule of the `rgb:` color form, as the spec
states it: a single digit replicates the nibble, otherwise as `#`. -/
def rgbScale (d v : Nat) : Nat :=
  match d with
  | 1 => v ||| (v <<< 4)
  | 2 => v
  | 3 => v >>> 4
  | _ => v >>> 8

/-! ## Theorems -/

section Claims

open csi

/-- C1 (counterexample): numeric code 38 lies in 0–97 and is in the fixed
`SgrCode` table, yet decoding the single-parameter unit `CSI 38 m` yields
the `Unspecified` fallback, not an `Sgr` attribute. -/
theorem c1_selector_38_not_sgr :
    CSI.parse [(38 : ℤ)] [] false 'm' = [CSI.Unspecified [38] [] false 'm'] ∧
    isSgrAction (CSI.Unspecified [38] [] false 'm') = false := by
  constructor
  · rfl
  · rfl

/-- C1 (amended): for every SGR numeric code of the fixed table other than
the extended-color selectors 38 and 48, decoding the single-parameter
`m` unit yields exactly one `Sgr` action, and encoding that action yields
a byte sequence which, lexed back into parameters and re-classified,
decodes to the same attribute value. -/
theorem c1_sgr_round_trip :
    ∀ c ∈ singleSgrCodes,
      (CSI.parse [c] [] false 'm').length = 1 ∧
      (CSI.parse [c] [] false 'm').all isSgrAction = true ∧
      (CSI.parse [c] [] false 'm').map reDecode =
        [some (CSI.parse [c] [] false 'm')] := by
  decide

/-- C1 (witness): the round trip at code 1 (bold). -/
theorem c1_sgr_round_trip_witness :
    (CSI.parse [(1 : ℤ)] [] false 'm').length = 1 ∧
    (CSI.parse [(1 : ℤ)] [] false 'm').all isSgrAction = true ∧
    (CSI.parse [(1 : ℤ)] [] false 'm').map reDecode =
      [some (CSI.parse [(1 : ℤ)] [] false 'm')] :=
  c1_sgr_round_trip 1 (by decide)

/-- C3 (code bug): a negative parameter in an extended-color SGR is not
rejected but wrapped by `to_u8` (`-1` becomes channel 255, `-2` becomes
palette index 254), while negative counts are rejected by `to_u32`. -/
theorem c3_negative_color_wraps :
    CSI.parse [38, 2, -1, 0, 0] [] false 'm' =
      [CSI.Sgr (Sgr.Foreground (ColorSpec.TrueColor (RgbColor.new 255 0 0)))] ∧
    CSI.parse [38, 5, -2] [] false 'm' =
      [CSI.Sgr (Sgr.Foreground (ColorSpec.PaletteIndex 254))] ∧
    to_u8 (-1) = some 255 ∧
    CSI.parse [-1] [] false 'C' = [CSI.Unspecified [-1] [] false 'C'] := by
  refine ⟨rfl, rfl, rfl, rfl⟩

/-- C4 (code bug): the `Unspecified` encoder emits the stored parameters
semicolon-joined and the control character as specified, but each stored
intermediate byte is written as its decimal representation (`write!`
`Display`), not as the raw byte: intermediate byte 63 (`?`) comes out as
the two characters `6` `3`. -/
theorem c4_intermediates_not_verbatim :
    CSI.encode_escape (CSI.Unspecified [] [63] false 'h') = "\x1b[63h".toList ∧
    "\x1b[63h".toList ≠ ['\x1b', '[', '?', 'h'] ∧
    CSI.encode_escape (CSI.Unspecified [1, 2] [] false 'q') = "\x1b[1;2q".toList := by
  refine ⟨rfl, by decide, rfl⟩

/-- C5: `CSI 1;3 m` decodes to exactly bold intensity then italic-on, in
that order; re-encoding the two actions yields `ESC[1m` `ESC[3m`; and the
SGR step on `[1, 3]` consumes exactly the one parameter it used, leaving
`[3]` for the next round of classification. -/
theorem c5_bold_italic :
    CSI.parse [1, 3] [] false 'm' =
      [CSI.Sgr (Sgr.Intensity Intensity.Bold), CSI.Sgr (Sgr.Italic true)] ∧
    CSI.encode_escape (CSI.Sgr (Sgr.Intensity Intensity.Bold)) ++
      CSI.encode_escape (CSI.Sgr (Sgr.Italic true)) = "\x1b[1m\x1b[3m".toList ∧
    sgr [1, 3] = some (Sgr.Intensity Intensity.Bold, some [3]) := by
  refine ⟨rfl, rfl, rfl⟩

/-- C6 (counterexample): classifying `W` with no parameters does not equal
classifying `W` with parameter 1 — the zero-parameter default of the
tabulation control is mode 0, not mode 1. -/
theorem c6_w_default_is_zero :
    CSI.parse [] [] false 'W' =
      [CSI.Cursor (Cursor.TabulationControl
        CursorTabulationControl.SetCharacterTabStopAtActivePosition)] ∧
    CSI.parse [1] [] false 'W' =
      [CSI.Cursor (Cursor.TabulationControl
        CursorTabulationControl.SetLineTabStopAtActiveLine)] ∧
    CursorTabulationControl.SetCharacterTabStopAtActivePosition ≠
      CursorTabulationControl.SetLineTabStopAtActiveLine := by
  refine ⟨rfl, rfl, by decide⟩

/-- C6 (amended): for the nine single-count cursor controls the
zero-parameter form equals the one-parameter form with value 1 (`CSI C`
and `CSI 1 C` both give `Right 1`, `CSI 4 C` gives `Right 4`); for `W`
the zero-parameter form instead equals the one-parameter form with
value 0. -/
theorem c6_zero_param_defaults :
    CSI.parse [] [] false 'Z' = CSI.parse [1] [] false 'Z' ∧
    CSI.parse [] [] false 'G' = CSI.parse [1] [] false 'G' ∧
    CSI.parse [] [] false 'I' = CSI.parse [1] [] false 'I' ∧
    CSI.parse [] [] false 'E' = CSI.parse [1] [] false 'E' ∧
    CSI.parse [] [] false 'F' = CSI.parse [1] [] false 'F' ∧
    CSI.parse [] [] false 'D' = CSI.parse [1] [] false 'D' ∧
    CSI.parse [] [] false 'B' = CSI.parse [1] [] false 'B' ∧
    CSI.parse [] [] false 'C' = CSI.parse [1] [] false 'C' ∧
    CSI.parse [] [] false 'Y' = CSI.parse [1] [] false 'Y' ∧
    CSI.parse [] [] false 'C' = [CSI.Cursor (Cursor.Right 1)] ∧
    CSI.parse [4] [] false 'C' = [CSI.Cursor (Cursor.Right 4)] ∧
    CSI.parse [] [] false 'W' = CSI.parse [0] [] false 'W' := by
  refine ⟨rfl, rfl, rfl, rfl, rfl, rfl, rfl, rfl, rfl, rfl, rfl, rfl⟩

/-- What `advance_by` returns when it returns `some`: the dropped list,
which is non-empty. -/
theorem advance_by_ok {n : Nat} {p r : List ℤ} (h : advance_by n p = some r) :
    r = p.drop n ∧ r ≠ [] := by
  simp only [advance_by] at h
  split at h
  · exact absurd h (by simp)
  · next hne =>
    cases h
    refine ⟨rfl, ?_⟩
    intro hnil
    rw [hnil] at hne
    simp at hne

/-- What `parse_sgr_color` returns when it returns `some`: the iterator
state advanced by the five or three parameters consumed. -/
theorem parse_sgr_color_ok {p : List ℤ} {c : ColorSpec} {st : Option (List ℤ)}
    (h : parse_sgr_color p = some (c, st)) :
    st = advance_by 5 p ∨ st = advance_by 3 p := by
  unfold parse_sgr_color at h
  split at h
  · split at h
    · cases h; exact Or.inl rfl
    · exact absurd h (by simp)
  · split at h
    · split at h
      · cases h; exact Or.inr rfl
      · exact absurd h (by simp)
    · exact absurd h (by simp)

/-- What `sgr` returns when it leaves the iterator running: the remaining
slice is a non-empty strict suffix of the input. -/
theorem sgr_ok {p : List ℤ} {a : Sgr} {st : Option (List ℤ)}
    (h : sgr p = some (a, st)) :
    ∀ r, st = some r → ∃ n, 0 < n ∧ r = p.drop n ∧ r ≠ [] := by
  match p with
  | [] =>
    cases h
    intro r hr
    exact absurd hr (by simp)
  | p0 :: t =>
    rw [sgr] at h
    rcases hcode : SgrCode.fromI64 p0 with _ | code
    · rw [hcode] at h; exact absurd h (by simp)
    · rw [hcode] at h
      cases code <;>
        first
        | -- arms built from `sgrOne`
          (simp only [sgrOne, Option.some.injEq, Prod.mk.injEq] at h
           obtain ⟨-, hst⟩ := h
           intro r hr
           rw [hr] at hst
           obtain ⟨he, hne⟩ := advance_by_ok hst
           exact ⟨1, Nat.one_pos, he, hne⟩)
        | -- the two extended-color arms
          (rw [Option.map_eq_some'] at h
           obtain ⟨⟨cspec, st'⟩, hc, heq⟩ := h
           intro r hr
           have hst : st' = some r := by
             have h2 : st' = st := congrArg Prod.snd heq
             rw [h2, hr]
           rcases parse_sgr_color_ok hc with h5 | h3
           · rw [h5] at hst
             obtain ⟨he, hne⟩ := advance_by_ok hst
             exact ⟨5, by omega, he, hne⟩
           · rw [h3] at hst
             obtain ⟨he, hne⟩ := advance_by_ok hst
             exact ⟨3, by omega, he, hne⟩)

/-- A parse-step arm that yields a cursor action directly never yields an
`Unspecified` action and always stops the iterator. -/
theorem leaf_direct {X : Cursor} {a : CSI} {st : Option (List ℤ)} {p : List ℤ}
    (h : some ((CSI.Cursor X : CSI), (none : Option (List ℤ))) = some (a, st)) :
    isUnspecAction a = false ∧
    ∀ r, st = some r → ∃ n, 0 < n ∧ r = p.drop n ∧ r ≠ [] := by
  cases h
  exact ⟨rfl, fun r hr => nomatch hr⟩

/-- A parse-step arm mapping a numeric conversion into a cursor action
never yields an `Unspecified` action and always stops the iterator. -/
theorem leaf_map {α : Type} {o : Option α} {f : α → Cursor} {a : CSI}
    {st : Option (List ℤ)} {p : List ℤ}
    (h : o.map (fun v => ((CSI.Cursor (f v) : CSI), (none : Option (List ℤ)))) =
      some (a, st)) :
    isUnspecAction a = false ∧
    ∀ r, st = some r → ∃ n, 0 < n ∧ r = p.drop n ∧ r ≠ [] := by
  rw [Option.map_eq_some'] at h
  obtain ⟨v, -, heq⟩ := h
  cases heq
  exact ⟨rfl, fun r hr => nomatch hr⟩

/-- What `parse_next` returns when it returns `some`: the yielded action
is never the `Unspecified` fallback, and a continuing iterator state is a
non-empty strict suffix of the input slice. -/
theorem parse_next_ok {c : Char} {inter : List Nat} {p : List ℤ} {a : CSI}
    {st : Option (List ℤ)} (h : parse_next c inter p = some (a, st)) :
    isUnspecAction a = false ∧
    ∀ r, st = some r → ∃ n, 0 < n ∧ r = p.drop n ∧ r ≠ [] := by
  rcases inter with _ | ⟨i, is⟩
  case cons => exact absurd h (by simp [parse_next])
  by_cases hm : c = 'm'
  · subst hm
    replace h : (sgr p).map (fun x => ((CSI.Sgr x.1 : CSI), x.2)) =
        some (a, st) := h
    rw [Option.map_eq_some'] at h
    obtain ⟨⟨s', st'⟩, hs, heq⟩ := h
    have h1 : CSI.Sgr s' = a := congrArg Prod.fst heq
    have h2 : st' = st := congrArg Prod.snd heq
    exact ⟨by rw [← h1]; rfl, fun r hr => sgr_ok hs r (by rw [h2, hr])⟩
  by_cases hZ : c = 'Z'
  · subst hZ
    rcases p with _ | ⟨n, _ | ⟨n2, rest⟩⟩
    · replace h : some ((CSI.Cursor (Cursor.BackwardTabulation 1) : CSI),
          (none : Option (List ℤ))) = some (a, st) := h
      exact leaf_direct h
    · replace h : (to_u32 n).map
          (fun v => ((CSI.Cursor (Cursor.BackwardTabulation v) : CSI),
            (none : Option (List ℤ)))) = some (a, st) := h
      exact leaf_map h
    · exact absurd h (by simp [parse_next])
  by_cases hG : c = 'G'
  · subst hG
    rcases p with _ | ⟨n, _ | ⟨n2, rest⟩⟩
    · replace h : some ((CSI.Cursor (Cursor.CharacterAbsolute 1) : CSI),
          (none : Option (List ℤ))) = some (a, st) := h
      exact leaf_direct h
    · replace h : (to_u32 n).map
          (fun v => ((CSI.Cursor (Cursor.CharacterAbsolute v) : CSI),
            (none : Option (List ℤ)))) = some (a, st) := h
      exact leaf_map h
    · exact absurd h (by simp [parse_next])
  by_cases hI : c = 'I'
  · subst hI
    rcases p with _ | ⟨n, _ | ⟨n2, rest⟩⟩
    · replace h : some ((CSI.Cursor (Cursor.ForwardTabulation 1) : CSI),
          (none : Option (List ℤ))) = some (a, st) := h
      exact leaf_direct h
    · replace h : (to_u32 n).map
          (fun v => ((CSI.Cursor (Cursor.ForwardTabulation v) : CSI),
            (none : Option (List ℤ)))) = some (a, st) := h
      exact leaf_map h
    · exact absurd h (by simp [parse_next])
  by_cases hE : c = 'E'
  · subst hE
    rcases p with _ | ⟨n, _ | ⟨n2, rest⟩⟩
    · replace h : some ((CSI.Cursor (Cursor.NextLine 1) : CSI),
          (none : Option (List ℤ))) = some (a, st) := h
      exact leaf_direct h
    · replace h : (to_u32 n).map
          (fun v => ((CSI.Cursor (Cursor.NextLine v) : CSI),
            (none : Option (List ℤ)))) = some (a, st) := h
      exact leaf_map h
    · exact absurd h (by simp [parse_next])
  by_cases hF : c = 'F'
  · subst hF
    rcases p with _ | ⟨n, _ | ⟨n2, rest⟩⟩
    · replace h : some ((CSI.Cursor (Cursor.PrecedingLine 1) : CSI),
          (none : Option (List ℤ))) = some (a, st) := h
      exact leaf_direct h
    · replace h : (to_u32 n).map
          (fun v => ((CSI.Cursor (Cursor.PrecedingLine v) : CSI),
            (none : Option (List ℤ)))) = some (a, st) := h
      exact leaf_map h
    · exact absurd h (by simp [parse_next])
  by_cases hR : c = 'R'
  · subst hR
    rcases p with _ | ⟨line, _ | ⟨col, _ | ⟨n3, rest⟩⟩⟩
    · exact absurd h (by simp [parse_next])
    · exact absurd h (by simp [parse_next])
    · rcases hl : to_u32 line with _ | l
      · exact absurd h (by simp [parse_next, hl])
      · rcases hc2 : to_u32 col with _ | c2
        · exact absurd h (by simp [parse_next, hl, hc2])
        · replace h : (match to_u32 line, to_u32 col with
            | some l, some c => some ((CSI.Cursor (Cursor.ActivePositionReport l c) : CSI),
                (none : Option (List ℤ)))
            | _, _ => none) = some (a, st) := h
          rw [hl, hc2] at h
          exact leaf_direct h
    · exact absurd h (by simp [parse_next])
  by_cases hD : c = 'D'
  · subst hD
    rcases p with _ | ⟨n, _ | ⟨n2, rest⟩⟩
    · replace h : some ((CSI.Cursor (Cursor.Left 1) : CSI),
          (none : Option (List ℤ))) = some (a, st) := h
      exact leaf_direct h
    · replace h : (to_u32 n).map
          (fun v => ((CSI.Cursor (Cursor.Left v) : CSI),
            (none : Option (List ℤ)))) = some (a, st) := h
      exact leaf_map h
    · exact absurd h (by simp [parse_next])
  by_cases hB : c = 'B'
  · subst hB
    rcases p with _ | ⟨n, _ | ⟨n2, rest⟩⟩
    · replace h : some ((CSI.Cursor (Cursor.Down 1) : CSI),
          (none : Option (List ℤ))) = some (a, st) := h
      exact leaf_direct h
    · replace h : (to_u32 n).map
          (fun v => ((CSI.Cursor (Cursor.Down v) : CSI),
            (none : Option (List ℤ)))) = some (a, st) := h
      exact leaf_map h
    · exact absurd h (by simp [parse_next])
  by_cases hC : c = 'C'
  · subst hC
    rcases p with _ | ⟨n, _ | ⟨n2, rest⟩⟩
    · replace h : some ((CSI.Cursor (Cursor.Right 1) : CSI),
          (none : Option (List ℤ))) = some (a, st) := h
      exact leaf_direct h
    · replace h : (to_u32 n).map
          (fun v => ((CSI.Cursor (Cursor.Right v) : CSI),
            (none : Option (List ℤ)))) = some (a, st) := h
      exact leaf_map h
    · exact absurd h (by simp [parse_next])
  by_cases hY : c = 'Y'
  · subst hY
    rcases p with _ | ⟨n, _ | ⟨n2, rest⟩⟩
    · replace h : some ((CSI.Cursor (Cursor.LineTabulation 1) : CSI),
          (none : Option (List ℤ))) = some (a, st) := h
      exact leaf_direct h
    · replace h : (to_u32 n).map
          (fun v => ((CSI.Cursor (Cursor.LineTabulation v) : CSI),
            (none : Option (List ℤ)))) = some (a, st) := h
      exact leaf_map h
    · exact absurd h (by simp [parse_next])
  by_cases hW : c = 'W'
  · subst hW
    rcases p with _ | ⟨n, _ | ⟨n2, rest⟩⟩
    · replace h : some ((CSI.Cursor (Cursor.TabulationControl
          CursorTabulationControl.SetCharacterTabStopAtActivePosition) : CSI),
          (none : Option (List ℤ))) = some (a, st) := h
      exact leaf_direct h
    · replace h : (CursorTabulationControl.fromI64 n).map
          (fun t => ((CSI.Cursor (Cursor.TabulationControl t) : CSI),
            (none : Option (List ℤ)))) = some (a, st) := h
      exact leaf_map h
    · exact absurd h (by simp [parse_next])
  by_cases hH : c = 'H'
  · subst hH
    rcases p with _ | ⟨line, _ | ⟨col, _ | ⟨n3, rest⟩⟩⟩
    · exact absurd h (by simp [parse_next])
    · exact absurd h (by simp [parse_next])
    · rcases hl : to_u32 line with _ | l
      · exact absurd h (by simp [parse_next, hl])
      · rcases hc2 : to_u32 col with _ | c2
        · exact absurd h (by simp [parse_next, hl, hc2])
        · replace h : (match to_u32 line, to_u32 col with
            | some l, some c => some ((CSI.Cursor (Cursor.Position l c) : CSI),
                (none : Option (List ℤ)))
            | _, _ => none) = some (a, st) := h
          rw [hl, hc2] at h
          exact leaf_direct h
    · exact absurd h (by simp [parse_next])
  simp only [parse_next, if_neg hm, if_neg hZ, if_neg hG, if_neg hI, if_neg hE,
    if_neg hF, if_neg hR, if_neg hD, if_neg hB, if_neg hC, if_neg hY, if_neg hW,
    if_neg hH] at h
  exact absurd h (by simp)

/-- The fuel-indexed iterator run, characterized: either no `Unspecified`
is ever produced, or the output is a run of recognized actions followed by
exactly one final `Unspecified` wrapping a suffix of the input slice. -/
theorem csiRunFuel_unspec (ctl : Char) (inter : List Nat) (ign : Bool) :
    ∀ (fuel : Nat) (params : List ℤ), params.length < fuel →
      (∃ acts k, csiRunFuel ctl inter ign fuel params =
          acts ++ [CSI.Unspecified (params.drop k) inter ign ctl] ∧
          noUnspecified acts = true) ∨
      noUnspecified (csiRunFuel ctl inter ign fuel params) = true := by
  intro fuel
  induction fuel with
  | zero => intro params hlt; exact absurd hlt (by omega)
  | succ fuel ih =>
    intro params hlt
    rw [csiRunFuel]
    rcases hpn : parse_next ctl inter params with _ | ⟨action, st⟩
    · exact Or.inl ⟨[], 0, by simp, rfl⟩
    · obtain ⟨hact, hsuf⟩ := parse_next_ok hpn
      rcases st with _ | rest
      · right
        simp [noUnspecified, hact]
      · obtain ⟨n, hn, hrest, hne⟩ := hsuf rest rfl
        have hlen : rest.length < fuel := by
          have : rest.length < params.length := by
            rw [hrest]
            have hlt' : n < params.length := by
              by_contra hge
              exact hne (by rw [hrest, List.drop_eq_nil_of_le (by omega)])
            simp only [List.length_drop]
            omega
          omega
        rcases ih rest hlen with ⟨acts, k, hout, hno⟩ | hno
        · left
          refine ⟨action :: acts, n + k, ?_, ?_⟩
          · simp only [hout, List.cons_append]
            rw [hrest, List.drop_drop]
          · simp [noUnspecified] at hno ⊢
            exact ⟨by simpa [isUnspecAction] using hact, hno⟩
        · right
          simp [noUnspecified] at hno ⊢
          exact ⟨by simpa [isUnspecAction] using hact, hno⟩

/-- C2: for every CSI unit, either classification never fails (no
`Unspecified` is produced), or the output is a run of recognized actions
followed by exactly one `Unspecified` that terminates the sequence and
carries a whole suffix of the parameter list (the entire remaining slice
at the point of failure) together with the stored intermediates and the
control character; in particular `CSI 1;1231231;3 m` yields exactly
`[Sgr Bold, Unspecified{params:[1231231, 3]}]`. -/
theorem c2_failure_consumes_remainder :
    (∀ (ctl : Char) (inter : List Nat) (ign : Bool) (params : List ℤ),
      (∃ acts k, CSI.parse params inter ign ctl =
          acts ++ [CSI.Unspecified (params.drop k) inter ign ctl] ∧
          noUnspecified acts = true) ∨
      noUnspecified (CSI.parse params inter ign ctl) = true) ∧
    CSI.parse [1, 1231231, 3] [] false 'm' =
      [CSI.Sgr (Sgr.Intensity Intensity.Bold),
       CSI.Unspecified [1231231, 3] [] false 'm'] := by
  refine ⟨fun ctl inter ign params => ?_, rfl⟩
  exact csiRunFuel_unspec ctl inter ign (params.length + 1) params (by omega)

/-- `parse_next` has no arm for control character `A`. -/
theorem parse_next_A (p : List ℤ) : parse_next 'A' [] p = none := rfl

/-- C10: classification never produces `Cursor::Up` — every `A` unit with
empty intermediates becomes a single `Unspecified` action — although the
`Cursor` encoder emits final character `A` for `Up` (count omitted when it
is 1), so encode-then-classify does not round-trip for `Up`. -/
theorem c10_up_never_classified :
    (∀ (params : List ℤ) (ign : Bool),
      CSI.parse params [] ign 'A' = [CSI.Unspecified params [] ign 'A']) ∧
    CSI.encode_escape (CSI.Cursor (Cursor.Up 1)) = "\x1b[A".toList ∧
    CSI.encode_escape (CSI.Cursor (Cursor.Up 4)) = "\x1b[4A".toList := by
  refine ⟨fun params ign => ?_, rfl, rfl⟩
  show csiRunFuel 'A' [] ign (params.length + 1) params = _
  rw [csiRunFuel, parse_next_A]

/-- Masking with `TEN_BITS = 1023` is reduction modulo 1024. -/
theorem land_1023 (x : Nat) : x &&& 1023 = x % 1024 := by
  have h := Nat.and_pow_two_sub_one_eq_mod x 10
  norm_num at h
  exact h

/-- Disjoint bitwise or is addition. -/
theorem lor_disjoint (x y k : Nat) (hx : x % 2 ^ k = 0) (hy : y < 2 ^ k) :
    x ||| y = x + y := by
  obtain ⟨a, ha⟩ : 2 ^ k ∣ x := Nat.dvd_of_mod_eq_zero hx
  subst ha
  exact (Nat.mul_add_lt_is_or hy a).symm

/-- The packed word built by `new_10bpc`, written as a sum: tag bit, then
the three masked channels in their fields. -/
theorem new_10bpc_bits (r g b : Nat) :
    (color.RgbColor.new_10bpc r g b).bits =
      2 ^ 31 + (r % 1024) * 2 ^ 20 + (g % 1024) * 2 ^ 10 + (b % 1024) := by
  show 0x80000000 ||| ((r &&& color.TEN_BITS) <<< 20)
      ||| ((g &&& color.TEN_BITS) <<< 10) ||| (b &&& color.TEN_BITS) = _
  rw [show color.TEN_BITS = 1023 from rfl, land_1023, land_1023, land_1023,
    Nat.shiftLeft_eq, Nat.shiftLeft_eq]
  have hr : r % 1024 < 1024 := Nat.mod_lt _ (by norm_num)
  have hg : g % 1024 < 1024 := Nat.mod_lt _ (by norm_num)
  have hb : b % 1024 < 1024 := Nat.mod_lt _ (by norm_num)
  have s1 : (0x80000000 : Nat) ||| (r % 1024 * 2 ^ 20) =
      0x80000000 + r % 1024 * 2 ^ 20 :=
    lor_disjoint _ _ 31 (by omega) (by omega)
  have s2 : ((0x80000000 : Nat) + r % 1024 * 2 ^ 20) ||| (g % 1024 * 2 ^ 10) =
      0x80000000 + r % 1024 * 2 ^ 20 + g % 1024 * 2 ^ 10 :=
    lor_disjoint _ _ 20 (by omega) (by omega)
  have s3 : ((0x80000000 : Nat) + r % 1024 * 2 ^ 20 + g % 1024 * 2 ^ 10) |||
      (b % 1024) =
      0x80000000 + r % 1024 * 2 ^ 20 + g % 1024 * 2 ^ 10 + b % 1024 :=
    lor_disjoint _ _ 10 (by omega) (by omega)
  rw [s1, s2, s3]
  norm_num

/-- `ten_to_eight` only depends on the low ten bits of its argument. -/
theorem ten_to_eight_mod (x : Nat) : color.ten_to_eight x = color.ten_to_eight (x % 1024) := by
  show flToU8 (flMul (flDiv (((x % 65536) &&& color.TEN_BITS : Nat) : ℚ) 1023) 255)
      = flToU8 (flMul (flDiv (((x % 1024 % 65536) &&& color.TEN_BITS : Nat) : ℚ) 1023) 255)
  rw [show color.TEN_BITS = 1023 from rfl, land_1023, land_1023]
  have hv : x % 65536 % 1024 = x % 1024 % 65536 % 1024 := by omega
  rw [hv]

set_option maxRecDepth 100000 in
set_option maxHeartbeats 4000000 in
/-- On the ten-bit range, the binary32 computation of `ten_to_eight`
truncates to exactly `⌊255 v / 1023⌋` (checked value by value). -/
theorem ten_to_eight_eq_floor : ∀ v : Nat, v < 1024 →
    color.ten_to_eight v = 255 * v / 1023 := by
  decide

/-- A successful `to_digit(16)` yields a value below 16. -/
theorem to_digit16_lt {c : Char} {n : Nat} (h : color.to_digit16 c = some n) :
    n < 16 := by
  unfold color.to_digit16 at h
  split at h
  · cases h; omega
  · split at h
    · cases h; omega
    · split at h
      · cases h; omega
      · exact absurd h (by simp)

/-- A hex digit character is a one-byte (ASCII) character. -/
theorem hex_utf8Size {c : Char} (h : color.isHexDigitChar c = true) :
    c.utf8Size = 1 := by
  have hc : c.toNat ≤ 102 := by
    unfold color.isHexDigitChar color.to_digit16 at h
    split at h
    · omega
    · split at h
      · omega
      · split at h
        · omega
        · simp at h
  have hle : c.val ≤ UInt32.ofNatCore 0x7F (by decide) := by
    change c.toNat ≤ 127
    omega
  simp only [Char.utf8Size]
  rw [if_pos hle]

/-- UTF-8 length distributes over append. -/
theorem utf8Len_append (a b : List Char) :
    color.utf8Len (a ++ b) = color.utf8Len a + color.utf8Len b := by
  unfold color.utf8Len
  rw [List.map_append, List.sum_append]

/-- The UTF-8 length of an all-hex string is its character count. -/
theorem utf8Len_hex : ∀ {cs : List Char}, cs.all color.isHexDigitChar = true →
    color.utf8Len cs = cs.length := by
  intro cs
  induction cs with
  | nil => intro _; rfl
  | cons c cs ih =>
    intro h
    rw [List.all_cons, Bool.and_eq_true] at h
    show c.utf8Size + color.utf8Len cs = cs.length + 1
    rw [hex_utf8Size h.1, ih h.2]
    omega

/-- Every character takes at least one byte. -/
theorem length_le_utf8Len : ∀ (cs : List Char), cs.length ≤ color.utf8Len cs := by
  intro cs
  induction cs with
  | nil => exact Nat.le_refl 0
  | cons c cs ih =>
    show cs.length + 1 ≤ c.utf8Size + color.utf8Len cs
    have := c.utf8Size_pos
    omega

/-- Running the hex loop over an all-hex block of characters: it consumes
exactly the block, folding its digits onto the accumulator big-endian.
The `u16` wrap never fires because the accumulated value stays below
`2 ^ 16` (the loop is always entered with enough headroom). -/
theorem parseHexGo_sound :
    ∀ (cs rest : List Char) (acc : Nat), cs.all color.isHexDigitChar = true →
      (acc + 1) * 16 ^ cs.length ≤ 65536 →
      color.parseHexGo cs.length (cs ++ rest) acc =
        some (cs.foldl (fun a ch => 16 * a + (color.to_digit16 ch).getD 0) acc,
          rest) := by
  intro cs
  induction cs with
  | nil => intro rest acc _ _; rfl
  | cons c cs ih =>
    intro rest acc hall hbound
    rw [List.all_cons, Bool.and_eq_true] at hall
    rw [List.length_cons] at hbound
    obtain ⟨n, hn⟩ : ∃ n, color.to_digit16 c = some n := by
      have := hall.1
      unfold color.isHexDigitChar at this
      exact Option.isSome_iff_exists.mp this
    have hn16 := to_digit16_lt hn
    have h16 : (16 : Nat) ≤ 16 ^ (cs.length + 1) :=
      Nat.le_self_pow (by omega) 16
    have hacc : acc * 16 < 65536 := by
      have h1 : (acc + 1) * 16 ≤ (acc + 1) * 16 ^ (cs.length + 1) :=
        Nat.mul_le_mul_left _ h16
      omega
    have hstep : ((acc <<< 4) % 65536) ||| n = 16 * acc + n := by
      rw [Nat.shiftLeft_eq]
      have hsh : acc * 2 ^ 4 % 65536 = acc * 16 := by omega
      rw [hsh]
      rw [lor_disjoint (acc * 16) n 4 (by omega) (by omega)]
      omega
    have hred : color.parseHexGo (cs.length + 1) (c :: (cs ++ rest)) acc =
        color.parseHexGo cs.length (cs ++ rest) (((acc <<< 4) % 65536) ||| n) := by
      rw [color.parseHexGo, hn]
    have hfold : (c :: cs).foldl
        (fun a ch => 16 * a + (color.to_digit16 ch).getD 0) acc =
        cs.foldl (fun a ch => 16 * a + (color.to_digit16 ch).getD 0)
          (16 * acc + n) := by
      simp [hn]
    show color.parseHexGo (cs.length + 1) (c :: (cs ++ rest)) acc = _
    rw [hred, hstep, hfold]
    apply ih rest (16 * acc + n) hall.2
    calc (16 * acc + n + 1) * 16 ^ cs.length
        ≤ ((acc + 1) * 16) * 16 ^ cs.length := by
          apply Nat.mul_le_mul_right
          omega
      _ = (acc + 1) * 16 ^ (cs.length + 1) := by ring
      _ ≤ 65536 := hbound

/-- A successful hex loop consumed an all-hex block of exactly the
requested number of characters. -/
theorem parseHexGo_complete :
    ∀ (d : Nat) (cs : List Char) (acc v : Nat) (rest : List Char),
      color.parseHexGo d cs acc = some (v, rest) →
      ∃ pre, cs = pre ++ rest ∧ pre.length = d ∧
        pre.all color.isHexDigitChar = true := by
  intro d
  induction d with
  | zero =>
    intro cs acc v rest h
    cases h
    exact ⟨[], rfl, rfl, rfl⟩
  | succ d ih =>
    intro cs acc v rest h
    match cs with
    | [] => exact absurd h (by simp [color.parseHexGo])
    | c :: cs =>
      rw [color.parseHexGo] at h
      rcases ht : color.to_digit16 c with _ | n
      · rw [ht] at h; exact absurd h (by simp)
      · rw [ht] at h
        obtain ⟨pre, hcs, hlen, hall⟩ := ih _ _ _ _ h
        refine ⟨c :: pre, by rw [List.cons_append, hcs], by simp [hlen], ?_⟩
        rw [List.all_cons, Bool.and_eq_true]
        exact ⟨by unfold color.isHexDigitChar; rw [ht]; rfl, hall⟩

/-- The big-endian value of an all-hex block is bounded by `16 ^ width`. -/
theorem hexValBE_lt :
    ∀ (cs : List Char) (acc : Nat), cs.all color.isHexDigitChar = true →
      cs.foldl (fun a ch => 16 * a + (color.to_digit16 ch).getD 0) acc <
        (acc + 1) * 16 ^ cs.length := by
  intro cs
  induction cs with
  | nil => intro acc _; simp
  | cons c cs ih =>
    intro acc hall
    rw [List.all_cons, Bool.and_eq_true] at hall
    obtain ⟨n, hn⟩ : ∃ n, color.to_digit16 c = some n := by
      have := hall.1
      unfold color.isHexDigitChar at this
      exact Option.isSome_iff_exists.mp this
    have hn16 := to_digit16_lt hn
    rw [List.foldl_cons, hn]
    calc cs.foldl (fun a ch => 16 * a + (color.to_digit16 ch).getD 0)
          (16 * acc + (some n).getD 0)
        < (16 * acc + (some n).getD 0 + 1) * 16 ^ cs.length := ih _ hall.2
      _ ≤ ((acc + 1) * 16) * 16 ^ cs.length := by
          apply Nat.mul_le_mul_right
          show 16 * acc + n + 1 ≤ (acc + 1) * 16
          omega
      _ = (acc + 1) * 16 ^ (cs.length + 1) := by ring

/-- `utf8Len` of a cons. -/
theorem utf8Len_cons (c : Char) (cs : List Char) :
    color.utf8Len (c :: cs) = c.utf8Size + color.utf8Len cs := by
  unfold color.utf8Len
  rw [List.map_cons, List.sum_cons]

/-- A `#`-form channel on an all-hex block of valid width: the block's
big-endian value, scaled by the stated rule, with the block consumed. -/
theorem hashChannel_sound (d : Nat) (cs rest : List Char)
    (hd : d ∈ ([1, 2, 3, 4] : List Nat)) (hlen : cs.length = d)
    (hall : cs.all color.isHexDigitChar = true) :
    color.hashChannel d (cs ++ rest) = some (hashScale d (hexValBE cs), rest) := by
  have hd' : d = 1 ∨ d = 2 ∨ d = 3 ∨ d = 4 := by simpa using hd
  have hbound : (0 + 1) * 16 ^ cs.length ≤ 65536 := by
    rw [hlen]; rcases hd' with rfl | rfl | rfl | rfl <;> norm_num
  have hsound := parseHexGo_sound cs rest 0 hall hbound
  rw [hlen] at hsound
  have hv : hexValBE cs < 16 ^ d := by
    have := hexValBE_lt cs 0 hall
    rw [hlen] at this
    simpa [hexValBE] using this
  unfold color.hashChannel
  rw [hsound]
  rcases hd' with rfl | rfl | rfl | rfl
  · show some ((hexValBE cs <<< 4) % 256, rest) = some (hexValBE cs <<< 4, rest)
    rw [Nat.shiftLeft_eq]
    norm_num at hv
    have hmod : hexValBE cs * 2 ^ 4 % 256 = hexValBE cs * 2 ^ 4 := by omega
    rw [hmod]
  · show some (hexValBE cs % 256, rest) = some (hexValBE cs, rest)
    norm_num at hv
    have hmod : hexValBE cs % 256 = hexValBE cs := by omega
    rw [hmod]
  · show some ((hexValBE cs >>> 4) % 256, rest) = some (hexValBE cs >>> 4, rest)
    rw [Nat.shiftRight_eq_div_pow]
    norm_num at hv
    have hmod : hexValBE cs / 2 ^ 4 % 256 = hexValBE cs / 2 ^ 4 := by omega
    rw [hmod]
  · show some ((hexValBE cs >>> 8) % 256, rest) = some (hexValBE cs >>> 8, rest)
    rw [Nat.shiftRight_eq_div_pow]
    norm_num at hv
    have hmod : hexValBE cs / 2 ^ 8 % 256 = hexValBE cs / 2 ^ 8 := by omega
    rw [hmod]

/-- An `rgb:`-form channel on an all-hex block of valid width: the block's
big-endian value, scaled by the stated rule, with the block consumed. -/
theorem rgbChannel_sound (d : Nat) (cs rest : List Char)
    (hd : d ∈ ([1, 2, 3, 4] : List Nat)) (hlen : cs.length = d)
    (hall : cs.all color.isHexDigitChar = true) :
    color.rgbChannel d (cs ++ rest) = some (rgbScale d (hexValBE cs), rest) := by
  have hd' : d = 1 ∨ d = 2 ∨ d = 3 ∨ d = 4 := by simpa using hd
  have hbound : (0 + 1) * 16 ^ cs.length ≤ 65536 := by
    rw [hlen]; rcases hd' with rfl | rfl | rfl | rfl <;> norm_num
  have hsound := parseHexGo_sound cs rest 0 hall hbound
  rw [hlen] at hsound
  have hv : hexValBE cs < 16 ^ d := by
    have := hexValBE_lt cs 0 hall
    rw [hlen] at this
    simpa [hexValBE] using this
  unfold color.rgbChannel
  rw [hsound]
  rcases hd' with rfl | rfl | rfl | rfl
  · show some ((hexValBE cs ||| (hexValBE cs <<< 4)) % 256, rest) =
      some (hexValBE cs ||| (hexValBE cs <<< 4), rest)
    norm_num at hv
    have hor : hexValBE cs ||| (hexValBE cs <<< 4) =
        hexValBE cs <<< 4 + hexValBE cs := by
      rw [Nat.lor_comm, Nat.shiftLeft_eq]
      exact lor_disjoint _ _ 4 (by omega) (by omega)
    rw [hor, Nat.shiftLeft_eq]
    have hmod : hexValBE cs * 2 ^ 4 + hexValBE cs % 256 =
        hexValBE cs * 2 ^ 4 + hexValBE cs := by omega
    have hmod2 : (hexValBE cs * 2 ^ 4 + hexValBE cs) % 256 =
        hexValBE cs * 2 ^ 4 + hexValBE cs := by omega
    rw [hmod2]
  · show some (hexValBE cs % 256, rest) = some (hexValBE cs, rest)
    norm_num at hv
    have hmod : hexValBE cs % 256 = hexValBE cs := by omega
    rw [hmod]
  · show some ((hexValBE cs >>> 4) % 256, rest) = some (hexValBE cs >>> 4, rest)
    rw [Nat.shiftRight_eq_div_pow]
    norm_num at hv
    have hmod : hexValBE cs / 2 ^ 4 % 256 = hexValBE cs / 2 ^ 4 := by omega
    rw [hmod]
  · show some ((hexValBE cs >>> 8) % 256, rest) = some (hexValBE cs >>> 8, rest)
    rw [Nat.shiftRight_eq_div_pow]
    norm_num at hv
    have hmod : hexValBE cs / 2 ^ 8 % 256 = hexValBE cs / 2 ^ 8 := by omega
    rw [hmod]

/-- Successful channels consumed an all-hex block of the requested
width (`#` form). -/
theorem hashChannel_some {d : Nat} {cs : List Char} {v : Nat} {rest : List Char}
    (h : color.hashChannel d cs = some (v, rest)) :
    ∃ pre, cs = pre ++ rest ∧ pre.length = d ∧
      pre.all color.isHexDigitChar = true := by
  unfold color.hashChannel at h
  rcases hp : color.parseHexGo d cs 0 with _ | ⟨comp, rest'⟩
  · rw [hp] at h; exact absurd h (by simp)
  · rw [hp] at h
    have hpre := parseHexGo_complete d cs 0 comp rest' hp
    match d, h with
    | 1, h => cases h; exact hpre
    | 2, h => cases h; exact hpre
    | 3, h => cases h; exact hpre
    | 4, h => cases h; exact hpre

/-- Successful channels consumed an all-hex block of the requested
width (`rgb:` form). -/
theorem rgbChannel_some {d : Nat} {cs : List Char} {v : Nat} {rest : List Char}
    (h : color.rgbChannel d cs = some (v, rest)) :
    ∃ pre, cs = pre ++ rest ∧ pre.length = d ∧
      pre.all color.isHexDigitChar = true := by
  unfold color.rgbChannel at h
  rcases hp : color.parseHexGo d cs 0 with _ | ⟨comp, rest'⟩
  · rw [hp] at h; exact absurd h (by simp)
  · rw [hp] at h
    have hpre := parseHexGo_complete d cs 0 comp rest' hp
    match d, h with
    | 1, h => cases h; exact hpre
    | 2, h => cases h; exact hpre
    | 3, h => cases h; exact hpre
    | 4, h => cases h; exact hpre

/-- A successful `slash!` consumed exactly one `/`. -/
theorem expectSlash_some {cs rest : List Char}
    (h : color.expectSlash cs = some rest) : cs = '/' :: rest := by
  match cs with
  | [] => exact absurd h (by simp [color.expectSlash])
  | c :: t =>
    replace h : (if c = '/' then some t else none) = some rest := h
    by_cases hc : c = '/'
    · rw [if_pos hc] at h
      cases h
      rw [hc]
    · rw [if_neg hc] at h
      exact absurd h (by simp)

/-- The `#` branch of `from_rgb_str` on a well-formed input: each channel
is the big-endian value of its digit block, shifted to eight bits. -/
theorem from_rgb_str_hash_sound (d : Nat) (r g b : List Char)
    (hd : d ∈ ([1, 2, 3, 4] : List Nat)) (hr : r.length = d) (hg : g.length = d)
    (hb : b.length = d) (hall : (r ++ g ++ b).all color.isHexDigitChar = true) :
    color.RgbColor.from_rgb_str ('#' :: (r ++ g ++ b)) =
      some (color.RgbColor.new_8bpc (hashScale d (hexValBE r))
        (hashScale d (hexValBE g)) (hashScale d (hexValBE b))) := by
  have hd14 : 1 ≤ d ∧ d ≤ 4 := by
    rcases (by simpa using hd : d = 1 ∨ d = 2 ∨ d = 3 ∨ d = 4) with
      rfl | rfl | rfl | rfl <;> omega
  have hall3 : r.all color.isHexDigitChar = true ∧
      g.all color.isHexDigitChar = true ∧
      b.all color.isHexDigitChar = true := by
    simpa [List.all_append, Bool.and_eq_true] using hall
  have hu : color.utf8Len ('#' :: (r ++ g ++ b)) = 1 + 3 * d := by
    rw [utf8Len_cons, utf8Len_hex hall]
    have hsharp : '#'.utf8Size = 1 := rfl
    rw [hsharp]
    simp only [List.length_append, hr, hg, hb]
    omega
  have e1 := hashChannel_sound d r (g ++ b) hd hr hall3.1
  have e2 := hashChannel_sound d g b hd hg hall3.2.1
  have e3 : color.hashChannel d b = some (hashScale d (hexValBE b), []) := by
    have := hashChannel_sound d b [] hd hb hall3.2.2
    rwa [List.append_nil] at this
  unfold color.RgbColor.from_rgb_str
  rw [if_pos (show ('#' :: (r ++ g ++ b)).head? = some '#' by simp), hu]
  rw [if_neg (show ¬(1 + (1 + 3 * d - 1) / 3 * 3 ≠ 1 + 3 * d) by omega)]
  rw [if_neg (show ¬((1 + 3 * d - 1) / 3 = 0 ∨ (1 + 3 * d - 1) / 3 > 4) by omega)]
  have hdig : (1 + 3 * d - 1) / 3 = d := by omega
  rw [hdig]
  simp only [List.drop_succ_cons, List.drop_zero, List.append_assoc, e1, e2, e3]

/-- The `rgb:` branch of `from_rgb_str` on a well-formed input: each
channel is the big-endian value of its digit block, scaled to eight bits
with nibble replication in the one-digit case. -/
theorem from_rgb_str_rgb_sound (d : Nat) (r g b : List Char)
    (hd : d ∈ ([1, 2, 3, 4] : List Nat)) (hr : r.length = d) (hg : g.length = d)
    (hb : b.length = d) (hall : (r ++ g ++ b).all color.isHexDigitChar = true) :
    color.RgbColor.from_rgb_str
        (['r', 'g', 'b', ':'] ++ (r ++ '/' :: (g ++ '/' :: b))) =
      some (color.RgbColor.new_8bpc (rgbScale d (hexValBE r))
        (rgbScale d (hexValBE g)) (rgbScale d (hexValBE b))) := by
  have hd14 : 1 ≤ d ∧ d ≤ 4 := by
    rcases (by simpa using hd : d = 1 ∨ d = 2 ∨ d = 3 ∨ d = 4) with
      rfl | rfl | rfl | rfl <;> omega
  have hall3 : r.all color.isHexDigitChar = true ∧
      g.all color.isHexDigitChar = true ∧
      b.all color.isHexDigitChar = true := by
    simpa [List.all_append, Bool.and_eq_true] using hall
  have hslash : '/'.utf8Size = 1 := rfl
  have hpre : color.utf8Len (['r', 'g', 'b', ':'] : List Char) = 4 := rfl
  have hu : color.utf8Len (['r', 'g', 'b', ':'] ++ (r ++ '/' :: (g ++ '/' :: b))) =
      3 * d + 6 := by
    rw [utf8Len_append, hpre, utf8Len_append, utf8Len_cons, utf8Len_append,
      utf8Len_cons, hslash, utf8Len_hex hall3.1, utf8Len_hex hall3.2.1,
      utf8Len_hex hall3.2.2, hr, hg, hb]
    omega
  have e1 := rgbChannel_sound d r ('/' :: (g ++ '/' :: b)) hd hr hall3.1
  have e2 := rgbChannel_sound d g ('/' :: b) hd hg hall3.2.1
  have e3 : color.rgbChannel d b = some (rgbScale d (hexValBE b), []) := by
    have := rgbChannel_sound d b [] hd hb hall3.2.2
    rwa [List.append_nil] at this
  unfold color.RgbColor.from_rgb_str
  rw [if_neg (show ¬((['r', 'g', 'b', ':'] ++
      (r ++ '/' :: (g ++ '/' :: b))).head? = some '#') by simp)]
  rw [if_pos (show (['r', 'g', 'b', ':'] ++
      (r ++ '/' :: (g ++ '/' :: b))).take 4 = ['r', 'g', 'b', ':'] ∧
      color.utf8Len (['r', 'g', 'b', ':'] ++ (r ++ '/' :: (g ++ '/' :: b))) > 6 by
    constructor
    · simp
    · rw [hu]; omega)]
  rw [hu]
  rw [if_neg (show ¬(3 + (3 * d + 6 - 3) / 3 * 3 ≠ 3 * d + 6) by omega)]
  rw [if_neg (show ¬((3 * d + 6 - 3) / 3 - 1 = 0 ∨ (3 * d + 6 - 3) / 3 - 1 > 4)
    by omega)]
  have hdig : (3 * d + 6 - 3) / 3 - 1 = d := by omega
  rw [hdig]
  have hdrop : (['r', 'g', 'b', ':'] ++ (r ++ '/' :: (g ++ '/' :: b))).drop 4 =
      r ++ '/' :: (g ++ '/' :: b) := by simp
  have hs1 : color.expectSlash ('/' :: (g ++ '/' :: b)) = some (g ++ '/' :: b) := rfl
  have hs2 : color.expectSlash ('/' :: b) = some b := rfl
  simp only [hdrop, e1, hs1, e2, hs2, e3]

/-- The `#` branch succeeds only on a body of 3, 6, 9 or 12 hex digits:
any other digit count and any non-hex character yield `none`
(stated as the contrapositive). -/
theorem from_rgb_str_hash_complete (s : List Char) (c : color.RgbColor)
    (h : color.RgbColor.from_rgb_str ('#' :: s) = some c) :
    s.all color.isHexDigitChar = true ∧ s.length ∈ ([3, 6, 9, 12] : List Nat) := by
  unfold color.RgbColor.from_rgb_str at h
  rw [if_pos (show ('#' :: s).head? = some '#' by simp)] at h
  by_cases h1 : 1 + (color.utf8Len ('#' :: s) - 1) / 3 * 3 ≠
      color.utf8Len ('#' :: s)
  · rw [if_pos h1] at h; exact absurd h (by simp)
  rw [if_neg h1] at h
  by_cases h2 : (color.utf8Len ('#' :: s) - 1) / 3 = 0 ∨
      (color.utf8Len ('#' :: s) - 1) / 3 > 4
  · rw [if_pos h2] at h; exact absurd h (by simp)
  rw [if_neg h2] at h
  simp only [List.drop_succ_cons, List.drop_zero] at h
  rcases hc1 : color.hashChannel ((color.utf8Len ('#' :: s) - 1) / 3) s with
    _ | ⟨red, cs1⟩
  · simp only [hc1] at h
    exact absurd h (by simp)
  simp only [hc1] at h
  rcases hc2 : color.hashChannel ((color.utf8Len ('#' :: s) - 1) / 3) cs1 with
    _ | ⟨green, cs2⟩
  · simp only [hc2] at h
    exact absurd h (by simp)
  simp only [hc2] at h
  rcases hc3 : color.hashChannel ((color.utf8Len ('#' :: s) - 1) / 3) cs2 with
    _ | ⟨blue, cs3⟩
  · simp only [hc3] at h
    exact absurd h (by simp)
  simp only [hc3] at h
  obtain ⟨p1, hs1, hl1, ha1⟩ := hashChannel_some hc1
  obtain ⟨p2, hs2, hl2, ha2⟩ := hashChannel_some hc2
  obtain ⟨p3, hs3, hl3, ha3⟩ := hashChannel_some hc3
  rw [not_ne_iff] at h1
  push_neg at h2
  have hu : color.utf8Len ('#' :: s) = 1 + color.utf8Len s := by
    rw [utf8Len_cons, show '#'.utf8Size = 1 from rfl]
  subst hs1; subst hs2; subst hs3
  have hlen : color.utf8Len (p1 ++ (p2 ++ (p3 ++ cs3))) =
      3 * ((color.utf8Len ('#' :: (p1 ++ (p2 ++ (p3 ++ cs3)))) - 1) / 3) +
      color.utf8Len cs3 := by
    rw [utf8Len_append, utf8Len_append, utf8Len_append,
      utf8Len_hex ha1, utf8Len_hex ha2, utf8Len_hex ha3, hl1, hl2, hl3]
    omega
  have hle := length_le_utf8Len cs3
  have hnil : cs3 = [] := by
    have hz : cs3.length = 0 := by omega
    exact List.length_eq_zero.mp hz
  subst hnil
  constructor
  · simp only [List.all_append, Bool.and_eq_true]
    exact ⟨ha1, ha2, ha3, rfl⟩
  · have hslen : (p1 ++ (p2 ++ (p3 ++ ([] : List Char)))).length =
        3 * ((color.utf8Len ('#' :: (p1 ++ (p2 ++ (p3 ++ ([] : List Char))))) - 1)
          / 3) := by
      simp only [List.length_append, List.length_nil, hl1, hl2, hl3]
      omega
    rw [hslen]
    simp only [List.mem_cons, List.not_mem_nil, or_false]
    omega

/-- The `rgb:` branch succeeds only on a body of three equal hex groups of
width 1–4 separated by slashes: any other shape (digit count, misplaced
slash, non-hex character) yields `none` (stated as the contrapositive). -/
theorem from_rgb_str_rgb_complete (s : List Char) (c : color.RgbColor)
    (h : color.RgbColor.from_rgb_str (['r', 'g', 'b', ':'] ++ s) = some c) :
    s.all (fun ch => color.isHexDigitChar ch || (ch == '/')) = true ∧
    s.length ∈ ([5, 8, 11, 14] : List Nat) := by
  unfold color.RgbColor.from_rgb_str at h
  rw [if_neg (show ¬((['r', 'g', 'b', ':'] ++ s).head? = some '#') by simp)] at h
  by_cases h2 : (['r', 'g', 'b', ':'] ++ s).take 4 = ['r', 'g', 'b', ':'] ∧
      color.utf8Len (['r', 'g', 'b', ':'] ++ s) > 6
  swap
  · rw [if_neg h2,
      if_neg (show ¬((['r', 'g', 'b', ':'] ++ s).take 4 = ['h', 's', 'l', ':'])
        by simp)] at h
    exact absurd h (by simp)
  rw [if_pos h2] at h
  by_cases h3 : 3 + (color.utf8Len (['r', 'g', 'b', ':'] ++ s) - 3) / 3 * 3 ≠
      color.utf8Len (['r', 'g', 'b', ':'] ++ s)
  · rw [if_pos h3] at h; exact absurd h (by simp)
  rw [if_neg h3] at h
  by_cases h4 : (color.utf8Len (['r', 'g', 'b', ':'] ++ s) - 3) / 3 - 1 = 0 ∨
      (color.utf8Len (['r', 'g', 'b', ':'] ++ s) - 3) / 3 - 1 > 4
  · rw [if_pos h4] at h; exact absurd h (by simp)
  rw [if_neg h4] at h
  rw [show (['r', 'g', 'b', ':'] ++ s).drop 4 = s by simp] at h
  rcases hc1 : color.rgbChannel
      ((color.utf8Len (['r', 'g', 'b', ':'] ++ s) - 3) / 3 - 1) s with
    _ | ⟨red, cs1⟩
  · simp only [hc1] at h
    exact absurd h (by simp)
  simp only [hc1] at h
  rcases he1 : color.expectSlash cs1 with _ | cs1'
  · simp only [he1] at h
    exact absurd h (by simp)
  simp only [he1] at h
  rcases hc2 : color.rgbChannel
      ((color.utf8Len (['r', 'g', 'b', ':'] ++ s) - 3) / 3 - 1) cs1' with
    _ | ⟨green, cs2⟩
  · simp only [hc2] at h
    exact absurd h (by simp)
  simp only [hc2] at h
  rcases he2 : color.expectSlash cs2 with _ | cs2'
  · simp only [he2] at h
    exact absurd h (by simp)
  simp only [he2] at h
  rcases hc3 : color.rgbChannel
      ((color.utf8Len (['r', 'g', 'b', ':'] ++ s) - 3) / 3 - 1) cs2' with
    _ | ⟨blue, cs3⟩
  · simp only [hc3] at h
    exact absurd h (by simp)
  simp only [hc3] at h
  obtain ⟨p1, hs1, hl1, ha1⟩ := rgbChannel_some hc1
  obtain ⟨p2, hs2, hl2, ha2⟩ := rgbChannel_some hc2
  obtain ⟨p3, hs3, hl3, ha3⟩ := rgbChannel_some hc3
  have hsl1 := expectSlash_some he1
  have hsl2 := expectSlash_some he2
  rw [not_ne_iff] at h3
  push_neg at h4
  have hu : color.utf8Len (['r', 'g', 'b', ':'] ++ s) = 4 + color.utf8Len s := by
    rw [utf8Len_append]; rfl
  have hP1 : color.utf8Len p1 = p1.length := utf8Len_hex ha1
  have hP2 : color.utf8Len p2 = p2.length := utf8Len_hex ha2
  have hP3 : color.utf8Len p3 = p3.length := utf8Len_hex ha3
  have hL5 : color.utf8Len s = color.utf8Len p1 + color.utf8Len cs1 := by
    rw [hs1, utf8Len_append]
  have hL4 : color.utf8Len cs1 = 1 + color.utf8Len cs1' := by
    rw [hsl1, utf8Len_cons, show ('/').utf8Size = 1 from rfl]
  have hL3 : color.utf8Len cs1' = color.utf8Len p2 + color.utf8Len cs2 := by
    rw [hs2, utf8Len_append]
  have hL2 : color.utf8Len cs2 = 1 + color.utf8Len cs2' := by
    rw [hsl2, utf8Len_cons, show ('/').utf8Size = 1 from rfl]
  have hL1 : color.utf8Len cs2' = color.utf8Len p3 + color.utf8Len cs3 := by
    rw [hs3, utf8Len_append]
  have hle := length_le_utf8Len cs3
  have hnil : cs3 = [] := by
    have hz : cs3.length = 0 := by omega
    exact List.length_eq_zero.mp hz
  subst hnil
  have hshape : s = p1 ++ '/' :: (p2 ++ '/' :: p3) := by
    rw [hs1, hsl1, hs2, hsl2, hs3, List.append_nil]
  constructor
  · rw [hshape]
    have w : ∀ p : List Char, p.all color.isHexDigitChar = true →
        (p.all fun ch => color.isHexDigitChar ch || ch == '/') = true := by
      intro p hp
      rw [List.all_eq_true] at hp ⊢
      intro x hx
      simp [hp x hx]
    simp only [List.all_append, List.all_cons, Bool.and_eq_true]
    exact ⟨w p1 ha1, by decide, w p2 ha2, by decide, w p3 ha3⟩
  · have hsl : s.length = p1.length + (1 + (p2.length + (1 + p3.length))) := by
      rw [hshape]
      simp only [List.length_append, List.length_cons]
      omega
    rw [hsl, hl1, hl2, hl3]
    simp only [List.mem_cons, List.not_mem_nil, or_false]
    omega

/-- C7: `from_rgb_str` applies the stated per-channel scaling rules. In
the `#` form each channel is the big-endian hex value of its digit block
shifted to eight bits (one digit `<<4`, two identity, three `>>4`, four
`>>8`), so `#FFF` parses to channels `0xF0`; in the `rgb:` form a single
digit instead replicates the nibble (`v | v<<4`) while two, three and
four digits scale as identity, `>>4` and `>>8`; and a success forces
every body character to be a hex digit (or a separating slash) and the
digit count to be one of the admitted shapes, so any other digit count or
non-hex character yields `none`. -/
theorem c7_from_rgb_str_scaling :
    (∀ (d : Nat) (r g b : List Char), d ∈ ([1, 2, 3, 4] : List Nat) →
      r.length = d → g.length = d → b.length = d →
      (r ++ g ++ b).all color.isHexDigitChar = true →
      color.RgbColor.from_rgb_str ('#' :: (r ++ g ++ b)) =
        some (color.RgbColor.new_8bpc (hashScale d (hexValBE r))
          (hashScale d (hexValBE g)) (hashScale d (hexValBE b)))) ∧
    (∀ (d : Nat) (r g b : List Char), d ∈ ([1, 2, 3, 4] : List Nat) →
      r.length = d → g.length = d → b.length = d →
      (r ++ g ++ b).all color.isHexDigitChar = true →
      color.RgbColor.from_rgb_str
          (['r', 'g', 'b', ':'] ++ (r ++ '/' :: (g ++ '/' :: b))) =
        some (color.RgbColor.new_8bpc (rgbScale d (hexValBE r))
          (rgbScale d (hexValBE g)) (rgbScale d (hexValBE b)))) ∧
    (∀ (s : List Char) (c : color.RgbColor),
      color.RgbColor.from_rgb_str ('#' :: s) = some c →
      s.all color.isHexDigitChar = true ∧
      s.length ∈ ([3, 6, 9, 12] : List Nat)) ∧
    (∀ (s : List Char) (c : color.RgbColor),
      color.RgbColor.from_rgb_str (['r', 'g', 'b', ':'] ++ s) = some c →
      (s.all fun ch => color.isHexDigitChar ch || ch == '/') = true ∧
      s.length ∈ ([5, 8, 11, 14] : List Nat)) ∧
    color.RgbColor.from_rgb_str ('#' :: ['F', 'F', 'F']) =
      some (color.RgbColor.new_8bpc 0xF0 0xF0 0xF0) :=
  ⟨from_rgb_str_hash_sound, from_rgb_str_rgb_sound, from_rgb_str_hash_complete,
    from_rgb_str_rgb_complete, by rfl⟩

/-- C7 witness: the hash-form soundness component applied at the concrete
input `#abc`, one digit per channel. -/
theorem c7_from_rgb_str_scaling_witness :
    color.RgbColor.from_rgb_str ('#' :: (['a'] ++ ['b'] ++ ['c'])) =
      some (color.RgbColor.new_8bpc (hashScale 1 (hexValBE ['a']))
        (hashScale 1 (hexValBE ['b'])) (hashScale 1 (hexValBE ['c']))) :=
  c7_from_rgb_str_scaling.1 1 ['a'] ['b'] ['c'] (by decide) rfl rfl rfl
    (by decide)

/-- C8 (counterexample): downscaling the 10bpc component 512 yields the
8-bit value 127 — the exact value 255·512/1023 ≈ 127.62 is truncated, not
rounded to 128 as the claim's `round(component/1023*255)` requires. -/
theorem c8_truncates_not_rounds :
    (color.RgbColor.to_tuple_rgb8 (color.RgbColor.new_10bpc 512 0 0)).1 = 127 ∧
    ⌊(255 * 512 : ℚ) / 1023 + 1 / 2⌋ = 128 ∧ (127 : Nat) ≠ 128 := by
  refine ⟨by decide, ?_, by decide⟩
  rw [Int.floor_eq_iff]
  norm_num

/-- C8 (amended): for every color stored in 10-bits-per-channel form,
`to_tuple_rgb8` yields each 8-bit channel as the truncation
`⌊component · 255 / 1023⌋` of the stored 10-bit component; in particular
1023 downscales to 255 and 0 downscales to 0. -/
theorem c8_ten_to_eight_floor :
    ∀ r g b : Nat, r < 1024 → g < 1024 → b < 1024 →
      color.RgbColor.to_tuple_rgb8 (color.RgbColor.new_10bpc r g b) =
        (255 * r / 1023, 255 * g / 1023, 255 * b / 1023) := by
  intro r g b hr hg hb
  have hbits := new_10bpc_bits r g b
  rw [Nat.mod_eq_of_lt hr, Nat.mod_eq_of_lt hg, Nat.mod_eq_of_lt hb] at hbits
  have htag : (color.RgbColor.new_10bpc r g b).bits &&& 0x80000000 ≠ 0 := by
    have h1 : (0x80000000 : Nat) = 2 ^ 31 := by norm_num
    rw [h1, Nat.and_two_pow]
    have ht : (color.RgbColor.new_10bpc r g b).bits.testBit 31 = true := by
      rw [Nat.testBit_to_div_mod, hbits, decide_eq_true_eq]
      omega
    rw [ht]
    norm_num
  unfold color.RgbColor.to_tuple_rgb8
  rw [if_neg htag]
  have h20 : (color.RgbColor.new_10bpc r g b).bits >>> 20 = 2 ^ 11 + r := by
    rw [Nat.shiftRight_eq_div_pow, hbits]
    omega
  have h10 : (color.RgbColor.new_10bpc r g b).bits >>> 10 =
      2 ^ 21 + r * 2 ^ 10 + g := by
    rw [Nat.shiftRight_eq_div_pow, hbits]
    omega
  rw [h20, h10, ten_to_eight_mod, ten_to_eight_mod (2 ^ 21 + r * 2 ^ 10 + g),
    ten_to_eight_mod (color.RgbColor.new_10bpc r g b).bits, hbits]
  have e1 : (2 ^ 11 + r) % 1024 = r := by omega
  have e2 : (2 ^ 21 + r * 2 ^ 10 + g) % 1024 = g := by omega
  have e3 : (2 ^ 31 + r * 2 ^ 20 + g * 2 ^ 10 + b) % 1024 = b := by omega
  rw [e1, e2, e3, ten_to_eight_eq_floor r hr, ten_to_eight_eq_floor g hg,
    ten_to_eight_eq_floor b hb]

/-- C8 (witness): the stored extremes 1023 and 0 downscale to 255 and 0. -/
theorem c8_ten_to_eight_floor_witness :
    color.RgbColor.to_tuple_rgb8 (color.RgbColor.new_10bpc 1023 0 0) =
      (255 * 1023 / 1023, 255 * 0 / 1023, 255 * 0 / 1023) :=
  c8_ten_to_eight_floor 1023 0 0 (by decide) (by decide) (by decide)

/-- C9 (counterexample): `new_10bpc` masks instead of clamping — input
component 1024 stores field value 0, not the clamped `min 1024 1023 =
1023` the claim requires. -/
theorem c9_mask_not_clamp :
    ((color.RgbColor.new_10bpc 1024 0 0).bits >>> 20) &&& 1023 = 0 ∧
    min 1024 1023 = 1023 ∧ (0 : Nat) ≠ 1023 := by
  refine ⟨by decide, by decide, by decide⟩

/-- C9 (amended): `new_10bpc` masks each component to its low ten bits
(`v mod 1024`, not `min v 1023`) before packing, and sets the tag bit
distinguishing 10bpc from 8bpc storage; reading a stored 10-bit field back
yields `v mod 1024` (hence `v` itself whenever `v ≤ 1023`). -/
theorem c9_new_10bpc_masks :
    ∀ r g b : Nat,
      (color.RgbColor.new_10bpc r g b).bits >>> 31 = 1 ∧
      ((color.RgbColor.new_10bpc r g b).bits >>> 20) &&& 1023 = r % 1024 ∧
      ((color.RgbColor.new_10bpc r g b).bits >>> 10) &&& 1023 = g % 1024 ∧
      (color.RgbColor.new_10bpc r g b).bits &&& 1023 = b % 1024 := by
  intro r g b
  have hbits := new_10bpc_bits r g b
  have hr : r % 1024 < 1024 := Nat.mod_lt _ (by norm_num)
  have hg : g % 1024 < 1024 := Nat.mod_lt _ (by norm_num)
  have hb : b % 1024 < 1024 := Nat.mod_lt _ (by norm_num)
  refine ⟨?_, ?_, ?_, ?_⟩
  · rw [Nat.shiftRight_eq_div_pow, hbits]; omega
  · rw [land_1023, Nat.shiftRight_eq_div_pow, hbits]; omega
  · rw [land_1023, Nat.shiftRight_eq_div_pow, hbits]; omega
  · rw [land_1023, hbits]; omega

/-! ### Lemmas about the hex-digit machinery of `from_rgb_str` -/

end Claims
